import Mathlib

/-!
Verification of the bomberman multiplayer backend engine
(`src/backend/...`) against its natural-language specification.

The Python sources are shallowly embedded: dataclasses become structures,
float-valued timers become rationals, mutation becomes explicit state
passing.  Python dictionaries become association lists; Python object
aliasing, where a claim depends on it, is modelled by an explicit heap.
-/

namespace Bomberman

/-- Tile types, `models/level.py` (`TileType`). -/
inductive TileType where
  | EMPTY
  | UNBREAKABLE
  | BREAKABLE
  | HARD
  | EXIT
  deriving DecidableEq, Repr

/-- Lookup in the `tiles` dict with default `EMPTY`
(`models/level.py`, `self.tiles.get((x, y), TileType.EMPTY)`). -/
def tilesGet (ts : List ((Int × Int) × TileType)) (p : Int × Int) : TileType :=
  match ts.find? (fun e => e.1 = p) with
  | some e => e.2
  | none => TileType.EMPTY

/-- Dict assignment `tiles[(x, y)] = t`. -/
def tilesSet (ts : List ((Int × Int) × TileType)) (p : Int × Int) (t : TileType) :
    List ((Int × Int) × TileType) :=
  if ts.any (fun e => e.1 = p) then
    ts.map (fun e => if e.1 = p then (p, t) else e)
  else
    ts ++ [(p, t)]

/-- `models/level.py` `LevelData`. -/
structure LevelData where
  level_id : String
  width : Int
  height : Int
  tiles : List ((Int × Int) × TileType)
  deriving DecidableEq, Repr

instance : Inhabited LevelData := ⟨⟨"", 0, 0, []⟩⟩

/-- `LevelData.tile_at`: out of bounds resolves to `UNBREAKABLE`. -/
def LevelData.tile_at (ld : LevelData) (x y : Int) : TileType :=
  if x < 0 ∨ y < 0 ∨ x ≥ ld.width ∨ y ≥ ld.height then TileType.UNBREAKABLE
  else tilesGet ld.tiles (x, y)

/-- `LevelData.can_move_to`: only `EMPTY` and `EXIT` are traversable. -/
def LevelData.can_move_to (ld : LevelData) (x y : Int) : Bool :=
  ld.tile_at x y = TileType.EMPTY ∨ ld.tile_at x y = TileType.EXIT

/-- `models/room.py` `Player`. -/
structure Player where
  player_id : String
  username : String
  socket_id : String
  position : Int × Int := (1, 1)
  health : Int := 100
  ready : Bool := false
  bomb_power : Int := 1
  bomb_count : Int := 1
  reached_exit : Bool := false
  deriving DecidableEq, Repr

/-- `models/room.py` `Bomb`.  Float timers are embedded as rationals. -/
structure Bomb where
  x : Int
  y : Int
  player_id : String
  timer : ℚ := 4
  exploded : Bool := false
  explosion_timer : ℚ := 1
  explosion_tiles : List (Int × Int) := []
  deriving DecidableEq, Repr

/-- `models/room.py` `Enemy`. -/
structure Enemy where
  enemy_id : String
  enemy_type : String
  position : Int × Int
  spawn_position : Int × Int
  health : Int := 100
  alive : Bool := true
  last_move_time : ℚ := 0
  deriving DecidableEq, Repr

/-- `models/room.py` `GameRoom`. -/
structure GameRoom where
  room_id : String
  room_code : String
  players : List Player := []
  started : Bool := false
  level_id : String := "level_1"
  level_width : Int := 11
  level_height : Int := 9
  level_data : Option LevelData := none
  bombs : List Bomb := []
  enemies : List Enemy := []
  original_breakable_walls : List (Int × Int) := []
  deriving DecidableEq, Repr

/-- `GameRoom.is_full`. -/
def GameRoom.is_full (room : GameRoom) : Bool :=
  room.players.length ≥ 2

/-- `GameRoom.add_player`: refuses when full, otherwise appends. -/
def GameRoom.add_player (room : GameRoom) (player : Player) : Bool × GameRoom :=
  if room.is_full then (false, room)
  else (true, { room with players := room.players ++ [player] })

/-- `GameRoom.get_player`: first player with the given id. -/
def GameRoom.get_player (room : GameRoom) (pid : String) : Option Player :=
  room.players.find? (fun p => p.player_id = pid)

/-- `GameRoom.get_player_by_socket`. -/
def GameRoom.get_player_by_socket (room : GameRoom) (sid : String) : Option Player :=
  room.players.find? (fun p => p.socket_id = sid)

/-! ## Bomb placement (`services/game_movement_service.py`) -/
/-- `GameMovementService.can_place_bomb`: the only check is that no
unexploded bomb already sits on the player's tile. -/
def can_place_bomb (room : GameRoom) (player : Player) : Bool :=
  ¬ room.bombs.any (fun b =>
      b.x = player.position.1 ∧ b.y = player.position.2 ∧ ¬ b.exploded)

/-- `GameMovementService.place_bomb`: returns the created bomb (if any)
together with the updated room. -/
def place_bomb (room : GameRoom) (player : Player) : Option Bomb × GameRoom :=
  if ¬ can_place_bomb room player then (none, room)
  else
    let nb : Bomb :=
      { x := player.position.1
        y := player.position.2
        player_id := player.player_id
        timer := 4
        exploded := false
        explosion_timer := 1 }
    (some nb, { room with bombs := room.bombs ++ [nb] })

/-! ## Blast computation (`services/bomb_service.py`, `handle_bomb_explosion`) -/
/-- One direction of the explosion loop
(`for r in range(1, radius + 1)` in `handle_bomb_explosion`).
`r` is the current step (starting at 1), `fuel` the number of remaining
loop iterations (`radius + 1 - r`).  Returns the tiles appended to
`explosion_tiles` by this direction and the mutated level data.
The loop breaks without appending on out-of-bounds (checked against the
room's width/height), `UNBREAKABLE` and `HARD`; appends and breaks on
`BREAKABLE` (converting it to `EMPTY`); appends and continues on `EMPTY`;
and falls through — continuing without appending — on `EXIT`. -/
def explodeRay (w h bx bY dx dy : Int) :
    Int → Nat → LevelData → List (Int × Int) × LevelData
  | _, 0, ld => ([], ld)
  | r, fuel + 1, ld =>
    let tx := bx + dx * r
    let ty := bY + dy * r
    if tx < 0 ∨ tx ≥ w ∨ ty < 0 ∨ ty ≥ h then ([], ld)
    else
      match ld.tile_at tx ty with
      | TileType.UNBREAKABLE => ([], ld)
      | TileType.HARD => ([], ld)
      | TileType.BREAKABLE =>
        ([(tx, ty)], { ld with tiles := tilesSet ld.tiles (tx, ty) TileType.EMPTY })
      | TileType.EMPTY =>
        let rec_ := explodeRay w h bx bY dx dy (r + 1) fuel ld
        ((tx, ty) :: rec_.1, rec_.2)
      | TileType.EXIT => explodeRay w h bx bY dx dy (r + 1) fuel ld

/-- The four explosion directions, in source order. -/
def explosionDirections : List (Int × Int) := [(0, -1), (0, 1), (-1, 0), (1, 0)]

/-- The owner-derived blast radius (`bomb_owner.bomb_power if bomb_owner
else 1` in `handle_bomb_explosion`). -/
def bombRadius (room : GameRoom) (bomb : Bomb) : Int :=
  match room.get_player bomb.player_id with
  | some p => p.bomb_power
  | none => 1

/-- Fold the explosion loop over the four directions, threading the
mutated level data. -/
def explodeAllRays (w h bx bY : Int) (radius : Nat) :
    List (Int × Int) → LevelData → List (Int × Int) × LevelData
  | [], ld => ([], ld)
  | d :: ds, ld =>
    let first := explodeRay w h bx bY d.1 d.2 1 radius ld
    let rest := explodeAllRays w h bx bY radius ds first.2
    (first.1 ++ rest.1, rest.2)

/-- `BombService.handle_bomb_explosion`: computes the blast tiles,
breaks breakable walls, stores the blast set on the bomb and applies
20 damage to every player whose position is in the blast set.
Returns the updated room and the updated bomb. -/
def handle_bomb_explosion (room : GameRoom) (bomb : Bomb) : GameRoom × Bomb :=
  match room.level_data with
  | none => (room, bomb)
  | some ld =>
    let rays := explodeAllRays room.level_width room.level_height bomb.x bomb.y
      (bombRadius room bomb).toNat explosionDirections ld
    let explosion_tiles := rays.1 ++ [(bomb.x, bomb.y)]
    let bomb' := { bomb with explosion_tiles := explosion_tiles }
    let players' := room.players.map (fun p =>
      if p.position ∈ explosion_tiles then
        { p with health := max 0 (p.health - 20) }
      else p)
    ({ room with level_data := some rays.2, players := players' }, bomb')

/-! ## Bomb ticking (`services/bomb_service.py`, `update_bombs`) -/
/-- One pass of the `for bomb in room.bombs` loop in `update_bombs`:
returns the updated bomb list, the room as mutated by explosions, and
the `bombs_to_remove` list.  A bomb already exploded at loop entry only
counts down its fade timer; a bomb whose countdown reaches 0 this tick
explodes (via `handle_bomb_explosion`) but does not fade this tick. -/
def updateBombsGo (delta : ℚ) : List Bomb → GameRoom → List Bomb × GameRoom × List Bomb
  | [], room => ([], room, [])
  | b :: rest, room =>
    if ¬ b.exploded then
      let t := b.timer - delta
      if t ≤ 0 then
        let armed := { b with timer := t, exploded := true, explosion_timer := 1 }
        let fired := handle_bomb_explosion room armed
        let tail := updateBombsGo delta rest fired.1
        (fired.2 :: tail.1, tail.2.1, tail.2.2)
      else
        let tail := updateBombsGo delta rest room
        ({ b with timer := t } :: tail.1, tail.2.1, tail.2.2)
    else
      let faded := { b with explosion_timer := b.explosion_timer - delta }
      let tail := updateBombsGo delta rest room
      (faded :: tail.1, tail.2.1,
        if faded.explosion_timer ≤ 0 then faded :: tail.2.2 else tail.2.2)

/-- `BombService.update_bombs`: tick all bombs, then remove the expired
ones (`list.remove` removes the first equal element). -/
def update_bombs (room : GameRoom) (delta : ℚ) : GameRoom :=
  let pass := updateBombsGo delta room.bombs room
  { pass.2.1 with bombs := pass.2.2.foldl (fun bs b => bs.erase b) pass.1 }

/-! ## Enemy contact damage (`services/enemy_damage_service.py`) -/
/-- `enemy_damage_service.CollisionState`. -/
structure CollisionState where
  duration : ℚ := 0
  cooldown : ℚ := 0
  last_enemy_id : Option String := none
  deriving DecidableEq, Repr

/-- The service's `_player_collision_states` dict (player id to state). -/
abbrev DamageStates := List (String × CollisionState)

/-- Dict lookup in `_player_collision_states`. -/
def statesGet (s : DamageStates) (pid : String) : Option CollisionState :=
  (s.find? (fun e => e.1 = pid)).map (fun e => e.2)

/-- Dict write to `_player_collision_states`. -/
def statesSet (s : DamageStates) (pid : String) (c : CollisionState) : DamageStates :=
  if s.any (fun e => e.1 = pid) then
    s.map (fun e => if e.1 = pid then (pid, c) else e)
  else
    s ++ [(pid, c)]

/-- `EnemyDamageService.COLLISION_THRESHOLD` (3.0 s). -/
def COLLISION_THRESHOLD : ℚ := 3

/-- `EnemyDamageService.DAMAGE_COOLDOWN_INITIAL` (0.5 s). -/
def DAMAGE_COOLDOWN_INITIAL : ℚ := 1 / 2

/-- `EnemyDamageService.DAMAGE_COOLDOWN_CONTINUOUS` (0.2 s). -/
def DAMAGE_COOLDOWN_CONTINUOUS : ℚ := 1 / 5

/-- `EnemyDamageService.DAMAGE_AMOUNT`. -/
def DAMAGE_AMOUNT : Int := 10

/-- `EnemyDamageService.check_proximity`: a stationary enemy never
collides; otherwise collision iff Manhattan distance at most 1. -/
def check_proximity (player_pos enemy_pos : Int × Int) (enemy_is_moving : Bool) : Bool :=
  if ¬ enemy_is_moving then false
  else
    let dx := |enemy_pos.1 - player_pos.1|
    let dy := |enemy_pos.2 - player_pos.2|
    dx ≤ 1 ∧ dy ≤ 1 ∧ dx + dy ≤ 1

/-- `EnemyDamageService.update_collision`.  A missing state is created
with defaults; the cooldown always counts down; the duration grows while
contact with the same enemy persists, restarts from `delta` on a new
enemy, and resets on no contact.  (`if collision_detected and enemy_id`
is Python truthiness: an empty enemy id counts as no collision.) -/
def update_collision (s : DamageStates) (pid : String) (delta : ℚ)
    (collision_detected : Bool) (enemy_id : Option String) : DamageStates :=
  let st0 := (statesGet s pid).getD {}
  let st1 := { st0 with cooldown := max 0 (st0.cooldown - delta) }
  let st2 :=
    match enemy_id with
    | some e =>
      if collision_detected ∧ e ≠ "" then
        if st1.last_enemy_id = some e then
          { st1 with duration := st1.duration + delta, last_enemy_id := some e }
        else
          { st1 with duration := delta, last_enemy_id := some e }
      else
        { st1 with duration := 0, last_enemy_id := none }
    | none => { st1 with duration := 0, last_enemy_id := none }
  statesSet s pid st2

/-- `EnemyDamageService.should_apply_damage`. -/
def should_apply_damage (s : DamageStates) (pid : String) : Bool :=
  match statesGet s pid with
  | none => false
  | some st => ¬ st.cooldown > 0 ∧ st.duration > 0

/-- `EnemyDamageService.reset_damage_cooldown`: picks the continuous
cooldown when the stored duration has reached the threshold, the initial
cooldown otherwise. -/
def reset_damage_cooldown (s : DamageStates) (pid : String) : DamageStates :=
  match statesGet s pid with
  | none => s
  | some st =>
    if st.duration ≥ COLLISION_THRESHOLD then
      statesSet s pid { st with cooldown := DAMAGE_COOLDOWN_CONTINUOUS }
    else
      statesSet s pid { st with cooldown := DAMAGE_COOLDOWN_INITIAL }

/-- `EnemyDamageService.apply_damage`: damages the player, then zeroes
the duration and only afterwards calls `reset_damage_cooldown`. -/
def apply_damage (s : DamageStates) (player : Player) : Bool × Player × DamageStates :=
  if ¬ should_apply_damage s player.player_id then (false, player, s)
  else
    let p' := { player with health := max 0 (player.health - DAMAGE_AMOUNT) }
    match statesGet s player.player_id with
    | some st =>
      let s1 := statesSet s player.player_id { st with duration := 0 }
      (true, p', reset_damage_cooldown s1 player.player_id)
    | none => (true, p', s)

/-- `EnemyDamageService.check_and_apply_damage`. -/
def check_and_apply_damage (s : DamageStates) (player : Player) (enemy : Enemy)
    (enemy_was_moving : Bool) (delta : ℚ) : Bool × Player × DamageStates :=
  let collision_detected := check_proximity player.position enemy.position enemy_was_moving
  let s1 := update_collision s player.player_id delta collision_detected
    (if collision_detected then some enemy.enemy_id else none)
  if collision_detected then apply_damage s1 player else (false, player, s1)

/-! ## Enemy movement (`services/game_movement_service.py`) -/
/-- Manhattan distance between integer points. -/
def manhattan (a b : Int × Int) : Int := |a.1 - b.1| + |a.2 - b.2|

/-- `GameMovementService.can_enemy_move_to`. -/
def can_enemy_move_to (room : GameRoom) (enemy : Enemy) (nx ny : Int) : Bool :=
  match room.level_data with
  | none => false
  | some ld =>
    ld.can_move_to nx ny ∧
    ¬ room.players.any (fun p =>
        p.health > 0 ∧ ¬ p.reached_exit ∧ p.position = (nx, ny)) ∧
    ¬ room.bombs.any (fun b => b.x = nx ∧ b.y = ny ∧ ¬ b.exploded) ∧
    ¬ room.enemies.any (fun o => o ≠ enemy ∧ o.alive ∧ o.position = (nx, ny))

/-- The static enemy's direction scan: each candidate step is rejected
when it leaves the Manhattan-1 leash around the spawn point or when it
is an illegal tile.  `dirs` is the shuffled direction order. -/
def staticTryDirs (room : GameRoom) (enemy : Enemy) : List (Int × Int) → Option (Int × Int)
  | [] => none
  | d :: ds =>
    let nx := enemy.position.1 + d.1
    let ny := enemy.position.2 + d.2
    if manhattan (nx, ny) enemy.spawn_position > 1 then staticTryDirs room enemy ds
    else if can_enemy_move_to room enemy nx ny then some (nx, ny)
    else staticTryDirs room enemy ds

/-- `GameMovementService.calculate_enemy_move`.  The `dirs` parameter
stands for the result of `random.shuffle` on the four unit directions
(used only by the `static` branch). -/
def calculate_enemy_move (room : GameRoom) (enemy : Enemy)
    (nearest_player : Option Player) (dirs : List (Int × Int)) : Option (Int × Int) :=
  match room.level_data with
  | none => none
  | some _ =>
    let ex := enemy.position.1
    let ey := enemy.position.2
    if enemy.enemy_type = "static" then
      match staticTryDirs room enemy dirs with
      | some np => some np
      | none =>
        if enemy.position ≠ enemy.spawn_position ∧
            can_enemy_move_to room enemy enemy.spawn_position.1 enemy.spawn_position.2 then
          some enemy.spawn_position
        else none
    else if enemy.enemy_type = "chasing" then
      match nearest_player with
      | none => none
      | some tp =>
        let cands := [(ex + 1, ey), (ex - 1, ey), (ex, ey + 1), (ex, ey - 1)]
        (cands.foldl (fun best c =>
          if ¬ can_enemy_move_to room enemy c.1 c.2 then best
          else
            let dist := manhattan c tp.position
            match best with
            | none => some (c, dist)
            | some b => if dist < b.2 then some (c, dist) else best) none).map
          (fun b => b.1)
    else if enemy.enemy_type = "smart" then
      match nearest_player with
      | none => none
      | some tp =>
        let dx := tp.position.1 - ex
        let dy := tp.position.2 - ey
        if dx = 0 ∧ dy = 0 then none
        else
          let cands :=
            if |dx| > |dy| then
              (if dx > 0 then [(ex + 1, ey)] else if dx < 0 then [(ex - 1, ey)] else []) ++
              (if dy > 0 then [(ex, ey + 1)] else if dy < 0 then [(ex, ey - 1)] else [])
            else
              (if dy > 0 then [(ex, ey + 1)] else if dy < 0 then [(ex, ey - 1)] else []) ++
              (if dx > 0 then [(ex + 1, ey)] else if dx < 0 then [(ex - 1, ey)] else [])
          cands.find? (fun c => can_enemy_move_to room enemy c.1 c.2)
    else none

/-- Per-tick enemy move interval (`move_interval = 0.5` in
`update_enemies`). -/
def move_interval : ℚ := 1 / 2

/-- Nearest living, non-exited player (strict-minimum scan, first
minimum wins, as in the `for player in room.players` loop). -/
def nearestPlayer (players : List Player) (epos : Int × Int) : Option Player :=
  (players.foldl (fun acc p =>
    if p.health > 0 ∧ ¬ p.reached_exit then
      let dist := manhattan p.position epos
      match acc with
      | none => some (p, dist)
      | some pr => if dist < pr.2 then some (p, dist) else acc
    else acc) none).map (fun pr => pr.1)

/-- The bomb-collision check inside `update_enemies`: every exploded
bomb whose blast set contains the enemy's position deals 50 damage,
each tick anew; the fold mirrors the `for bomb in room.bombs` loop. -/
def enemyBombDamage (bombs : List Bomb) (e : Enemy) : Enemy :=
  bombs.foldl (fun e b =>
    if b.exploded ∧ e.position ∈ b.explosion_tiles then
      let h := max 0 (e.health - 50)
      { e with health := h, alive := if h ≤ 0 then false else e.alive }
    else e) e

/-- The inner `for player in room.players` damage loop of
`update_enemies`: qualifying players (alive, not exited) are run
through `check_and_apply_damage`, threading the collision-state dict. -/
def updatePlayersContact (e : Enemy) (moving : Bool) (delta : ℚ) :
    List Player → DamageStates → List Player × DamageStates
  | [], s => ([], s)
  | p :: ps, s =>
    if p.health > 0 ∧ ¬ p.reached_exit then
      let r := check_and_apply_damage s p e moving delta
      let tail := updatePlayersContact e moving delta ps r.2.2
      (r.2.1 :: tail.1, tail.2)
    else
      let tail := updatePlayersContact e moving delta ps s
      (p :: tail.1, tail.2)

/-- The bomb-damage, timer and movement part of one iteration of
`update_enemies`' main loop, producing the iteration's final enemy:
apply bomb damage, advance the move timer, and when the interval
elapsed attempt one move (`dirs`/`rng` model the `random.shuffle` used
by the static type; chasing/smart types aim at the nearest living,
non-exited player found before the damage stage). -/
def steppedEnemy (delta : ℚ) (i : Nat) (e : Enemy) (room : GameRoom)
    (rng : List (List (Int × Int))) : Enemy :=
  let e1 := enemyBombDamage room.bombs e
  let lmt := e1.last_move_time + delta
  if lmt ≥ move_interval then
    let e2 := { e1 with last_move_time := lmt }
    let roomCur := { room with enemies := room.enemies.set i e2 }
    let isStatic := e2.enemy_type = "static"
    let dirs := if isStatic then rng.headD [(0, 1), (0, -1), (1, 0), (-1, 0)] else []
    let target := if isStatic then none else nearestPlayer room.players e.position
    match calculate_enemy_move roomCur e2 target dirs with
    | some np => { e2 with position := np, last_move_time := 0 }
    | none => e2
  else { e1 with last_move_time := lmt }

/-- The shuffle stream left after one iteration: one entry is consumed
exactly when a static enemy computed a move. -/
def steppedRng (delta : ℚ) (e : Enemy) (room : GameRoom)
    (rng : List (List (Int × Int))) : List (List (Int × Int)) :=
  let e1 := enemyBombDamage room.bombs e
  if e1.last_move_time + delta ≥ move_interval ∧ e1.enemy_type = "static" then rng.tail
  else rng

/-- The body of `update_enemies`' main loop, iterating over enemy
indices.  `prev` is the snapshot of living enemies' positions taken
before the loop.  Each iteration runs `steppedEnemy`, then the contact
damage pass over all players with the enemy's moved-since-snapshot
flag. -/
def updateEnemiesGo (delta : ℚ) (prev : List (String × (Int × Int))) :
    Nat → Nat → GameRoom → DamageStates → List (List (Int × Int)) →
    GameRoom × DamageStates × List (List (Int × Int))
  | 0, _, room, s, rng => (room, s, rng)
  | fuel + 1, i, room, s, rng =>
    match room.enemies.get? i with
    | none => (room, s, rng)
    | some e =>
      if ¬ e.alive then updateEnemiesGo delta prev fuel (i + 1) room s rng
      else
        let e3 := steppedEnemy delta i e room rng
        let prevPos := ((prev.find? (fun q => q.1 = e.enemy_id)).map (fun q => q.2)).getD e3.position
        let moving := prevPos ≠ e3.position
        let contact := updatePlayersContact e3 moving delta room.players s
        let room' := { room with enemies := room.enemies.set i e3, players := contact.1 }
        updateEnemiesGo delta prev fuel (i + 1) room' contact.2 (steppedRng delta e room rng)

/-- `GameMovementService.update_enemies`.  The collision-state dict `s`
belongs to the service object and persists across ticks; `rng` models
the `random.shuffle` outcomes. -/
def update_enemies (room : GameRoom) (delta : ℚ) (s : DamageStates)
    (rng : List (List (Int × Int))) :
    GameRoom × DamageStates × List (List (Int × Int)) :=
  match room.level_data with
  | none => (room, s, rng)
  | some _ =>
    let prev := room.enemies.filterMap (fun e =>
      if e.alive then some (e.enemy_id, e.position) else none)
    updateEnemiesGo delta prev room.enemies.length 0 room s rng

/-! ## Player movement (`services/game_movement_service.py`) -/
/-- Update the first player with the given id (Python mutates the
object returned by `get_player`, which scans for the first match). -/
def updateFirstPlayer (f : Player → Player) (pid : String) : List Player → List Player
  | [] => []
  | p :: ps => if p.player_id = pid then f p :: ps else p :: updateFirstPlayer f pid ps

/-- Replace the health of the (first) player with the given id. -/
def setPlayerHealth (room : GameRoom) (pid : String) (h : Int) : GameRoom :=
  { room with players := updateFirstPlayer (fun p => { p with health := h }) pid room.players }

/-- `GameMovementService.can_player_move_to`: bounds, tile, bomb,
other-player (living and not exited only) and enemy checks, in source
order, with the source's reason codes. -/
def can_player_move_to (room : GameRoom) (player : Player) (nx ny : Int) : Bool × String :=
  match room.level_data with
  | none => (false, "level_not_loaded")
  | some ld =>
    if nx < 0 ∨ nx ≥ room.level_width ∨ ny < 0 ∨ ny ≥ room.level_height then
      (false, "out_of_bounds")
    else if ¬ ld.can_move_to nx ny then (false, "tile_collision")
    else if room.bombs.any (fun b => b.x = nx ∧ b.y = ny ∧ ¬ b.exploded) then
      (false, "bomb_collision")
    else if room.players.any (fun op =>
        op.player_id ≠ player.player_id ∧ op.health > 0 ∧ ¬ op.reached_exit ∧
        op.position = (nx, ny)) then
      (false, "player_collision")
    else if room.enemies.any (fun e => e.alive ∧ e.position = (nx, ny)) then
      (false, "enemy_collision")
    else (true, "ok")

/-- The exit-tile update in `move_player`: `reached_exit` is set only
when not already set. -/
def markReachedExit (p : Player) : Player :=
  if ¬ p.reached_exit then { p with reached_exit := true } else p

/-- `GameMovementService.move_player`, acting on the room's player with
the given id (the handler passes the object stored in `room.players`).
Returns the new position (or `none`) and the updated room. -/
def move_player (room : GameRoom) (pid : String) (direction : String) :
    Option (Int × Int) × GameRoom :=
  match room.get_player pid with
  | none => (none, room)
  | some player =>
    let x := player.position.1
    let y := player.position.2
    let newPos : Option (Int × Int) :=
      if direction = "up" then some (x, y - 1)
      else if direction = "down" then some (x, y + 1)
      else if direction = "left" then some (x - 1, y)
      else if direction = "right" then some (x + 1, y)
      else none
    match newPos with
    | none => (none, room)
    | some np =>
      if ¬ (can_player_move_to room player np.1 np.2).1 then (none, room)
      else
        let room1 := { room with
          players := updateFirstPlayer (fun p => { p with position := np }) pid room.players }
        let room2 :=
          match room1.level_data with
          | some ld =>
            if ld.tile_at np.1 np.2 = TileType.EXIT then
              { room1 with players := updateFirstPlayer markReachedExit pid room1.players }
            else room1
          | none => room1
        (some np, room2)

/-- `handle_place_bomb`'s delegation to `place_bomb` for the room's
player with the given id. -/
def place_bomb_of_id (room : GameRoom) (pid : String) : Option Bomb × GameRoom :=
  match room.get_player pid with
  | none => (none, room)
  | some p => place_bomb room p

/-! ## Level loading and game setup (`services/game_setup_service.py`,
`services/game_start_service.py`).  The JSON level database read by
`level_service._load_level_from_json` is not part of the sources; it is
abstracted as a function `db : String → Option LevelData` (and
`defdb : String → Option LevelDefn` for `get_level_definition`). -/
/-- One entry of a level's `enemy_spawns` JSON list. -/
structure EnemySpawnDef where
  ty : String
  count : Nat
  deriving DecidableEq, Repr

/-- The part of a level definition used by `spawn_enemies`. -/
structure LevelDefn where
  enemy_spawns : List EnemySpawnDef := []
  enemy_positions : List (Int × Int) := []
  deriving DecidableEq, Repr

/-- `GameSetupService.load_level`: on success stores the grid, its
dimensions and the set of originally breakable walls on the room. -/
def load_level (db : String → Option LevelData) (room : GameRoom) : Bool × GameRoom :=
  match db room.level_id with
  | none => (false, room)
  | some ld =>
    (true, { room with
      level_data := some ld
      level_width := ld.width
      level_height := ld.height
      original_breakable_walls :=
        (ld.tiles.filter (fun e => e.2 = TileType.BREAKABLE)).map (fun e => e.1) })

/-- `range(a, b)` over integers. -/
def intRange (a b : Int) : List Int :=
  (List.range (b - a).toNat).map (fun i => a + (i : Int))

/-- The `enemy_id_counter`-driven inner spawn loop
(`for _ in range(count)` in `spawn_enemies`): each position drawn from
the iterator either yields an enemy or is skipped when not traversable;
an exhausted iterator stops the group. -/
def spawnGroup (ld : LevelData) (ety : String) :
    Nat → List (Int × Int) → Nat → List Enemy × List (Int × Int) × Nat
  | 0, ps, ctr => ([], ps, ctr)
  | n + 1, ps, ctr =>
    match ps with
    | [] => ([], [], ctr)
    | pos :: rest =>
      if ld.can_move_to pos.1 pos.2 then
        let e : Enemy :=
          { enemy_id := "enemy_" ++ toString ctr
            enemy_type := ety
            position := pos
            spawn_position := pos
            health := 100
            alive := true
            last_move_time := 0 }
        let tail := spawnGroup ld ety n rest (ctr + 1)
        (e :: tail.1, tail.2.1, tail.2.2)
      else
        spawnGroup ld ety n rest ctr

/-- The outer `for spawn in enemy_spawns` loop of `spawn_enemies`. -/
def spawnAll (ld : LevelData) :
    List EnemySpawnDef → List (Int × Int) → Nat → List Enemy
  | [], _, _ => []
  | sp :: rest, ps, ctr =>
    let g := spawnGroup ld (sp.ty.toLower) sp.count ps ctr
    g.1 ++ spawnAll ld rest g.2.1 g.2.2

/-- Scan order `for y in range(1, h-1): for x in range(1, w-1)` as a
coordinate list. -/
def scanInterior (w h : Int) : List (Int × Int) :=
  (intRange 1 (h - 1)).flatMap (fun yy => (intRange 1 (w - 1)).map (fun xx => (xx, yy)))

/-- The position-accumulating loops of `_calculate_enemy_positions`:
skip positions already used, optionally require Manhattan distance at
least 3 from the player start, stop at `total`. -/
def pickLoop (total : Nat) (needDist : Bool) :
    List (Int × Int) → List (Int × Int) → List (Int × Int)
  | [], acc => acc
  | p :: ps, acc =>
    if acc.length ≥ total then acc
    else if p ∈ acc then pickLoop total needDist ps acc
    else if needDist ∧ ¬ manhattan p (1, 1) ≥ 3 then pickLoop total needDist ps acc
    else pickLoop total needDist ps (acc ++ [p])

/-- `GameSetupService._calculate_enemy_positions`.  The seeded
`rng.shuffle` is abstracted as the `shuf` parameter. -/
def calcEnemyPositions (ld : LevelData) (total : Nat)
    (shuf : List (Int × Int) → List (Int × Int)) : List (Int × Int) :=
  if total = 0 then []
  else
    let avail0 := (scanInterior ld.width ld.height).filter (fun p =>
      ¬ (p.1 % 2 = 0 ∧ p.2 % 2 = 0) ∧ ld.can_move_to p.1 p.2)
    let avail := shuf (avail0.filter (fun p =>
      ¬ (0 ≤ p.1 ∧ p.1 < ld.width ∧ 0 ≤ p.2 ∧ p.2 < ld.height ∧ manhattan p (1, 1) ≤ 2)))
    let firstPass := pickLoop total true avail []
    let both := if firstPass.length < total then pickLoop total false avail firstPass else firstPass
    both.take total

/-- `GameSetupService.spawn_enemies`. -/
def spawn_enemies (defdb : String → Option LevelDefn)
    (shuf : List (Int × Int) → List (Int × Int)) (room : GameRoom) : GameRoom :=
  match room.level_data with
  | none => room
  | some ld =>
    let room := { room with enemies := [] }
    match defdb room.level_id with
    | none => room
    | some d =>
      let total := (d.enemy_spawns.map (fun s => s.count)).sum
      let positions :=
        if d.enemy_positions.isEmpty then calcEnemyPositions ld total shuf
        else d.enemy_positions
      { room with enemies := spawnAll ld d.enemy_spawns positions 0 }

/-- `GameSetupService.position_players`: player 1 gets `(1, 1)` or the
first traversable interior tile; player 2 gets an adjacent traversable
tile, else a traversable tile within 3 Manhattan steps, else the
bottom-right fallback. -/
def position_players (room : GameRoom) : GameRoom :=
  match room.level_data with
  | none => room
  | some ld =>
    match room.players with
    | [] => room
    | p0 :: rest =>
      let pos1 :=
        if ld.can_move_to 1 1 then ((1 : Int), (1 : Int))
        else ((scanInterior room.level_width room.level_height).find? (fun p =>
          ld.can_move_to p.1 p.2)).getD (1, 1)
      let p0' := { p0 with position := pos1 }
      match rest with
      | [] => { room with players := [p0'] }
      | p1 :: rest2 =>
        let cands := [(pos1.1 + 1, pos1.2), (pos1.1 - 1, pos1.2),
          (pos1.1, pos1.2 + 1), (pos1.1, pos1.2 - 1)]
        let pos2 :=
          match cands.find? (fun c => ld.can_move_to c.1 c.2 ∧ c ≠ pos1) with
          | some c => c
          | none =>
            match (scanInterior room.level_width room.level_height).find? (fun c =>
                ld.can_move_to c.1 c.2 ∧ c ≠ pos1 ∧ manhattan c pos1 ≤ 3) with
            | some c => c
            | none => (room.level_width - 2, room.level_height - 2)
        { room with players := p0' :: { p1 with position := pos2 } :: rest2 }

/-- The `game_started` event payload. -/
structure GameStartedEvent where
  level_id : String
  players : List Player
  deriving DecidableEq, Repr

/-- `GameStartService.start_game`: requires a full room, loads the
level (aborting with no event on failure), sets the started flag,
spawns enemies and positions players.  (The best-effort PostgreSQL
`started`-flag update has no effect on the in-memory result.) -/
def start_game (db : String → Option LevelData) (defdb : String → Option LevelDefn)
    (shuf : List (Int × Int) → List (Int × Int)) (room : GameRoom) :
    Option GameStartedEvent × GameRoom :=
  if ¬ room.is_full then (none, room)
  else
    let loaded := load_level db room
    if ¬ loaded.1 then (none, loaded.2)
    else
      let r1 := { loaded.2 with started := true }
      let r2 := spawn_enemies defdb shuf r1
      let r3 := position_players r2
      (some { level_id := r3.level_id, players := r3.players }, r3)

/-! ## Level advancement (`services/game_level_service.py`) -/
/-- `GameLevelService.check_level_completion`. -/
def check_level_completion (room : GameRoom) : Bool :=
  if ¬ room.started then false
  else
    let alive := room.players.filter (fun p => p.health > 0)
    if alive.length = 0 then false
    else alive.all (fun p => p.reached_exit)

/-- Python `str.split("_")`, over the character list. -/
def splitOnChar (sep : Char) : List Char → List (List Char)
  | [] => [[]]
  | c :: cs =>
    let r := splitOnChar sep cs
    if c = sep then [] :: r
    else
      match r with
      | [] => [[c]]
      | g :: gs => (c :: g) :: gs

/-- Decimal accumulator of the `int()` model. -/
def parseDigitsGo : Nat → List Char → Option Nat
  | acc, [] => some acc
  | acc, c :: cs =>
    if '0' ≤ c ∧ c ≤ '9' then parseDigitsGo (acc * 10 + (c.toNat - '0'.toNat)) cs
    else none

/-- Python `int(s)` for canonical decimal forms (`ValueError` is
`none`). -/
def parseIntPy? (s : List Char) : Option Int :=
  match s with
  | [] => none
  | '-' :: ds =>
    if ds.isEmpty then none else (parseDigitsGo 0 ds).map (fun n => -(n : Int))
  | '+' :: ds =>
    if ds.isEmpty then none else (parseDigitsGo 0 ds).map (fun n => (n : Int))
  | ds => (parseDigitsGo 0 ds).map (fun n => (n : Int))

/-- `GameLevelService.get_next_level_id`: parses the numeric suffix
(`int(current_level_id.split("_")[-1])`, `ValueError` giving `None`),
increments it and caps at level 10. -/
def get_next_level_id (current : String) : Option String :=
  match (splitOnChar '_' current.data).getLast? with
  | none => none
  | some s =>
    match parseIntPy? s with
    | none => none
    | some k =>
      if k + 1 > 10 then none
      else some ("level_" ++ toString (k + 1))

/-- `GameLevelService.advance_to_next_level`: bumps the level id, loads
the new grid, revives and resets every player, clears bombs, re-spawns
enemies and repositions the players. -/
def advance_to_next_level (db : String → Option LevelData)
    (defdb : String → Option LevelDefn)
    (shuf : List (Int × Int) → List (Int × Int)) (room : GameRoom) : Bool × GameRoom :=
  match get_next_level_id room.level_id with
  | none => (false, room)
  | some nid =>
    let r1 := { room with level_id := nid }
    let loaded := load_level db r1
    if ¬ loaded.1 then (false, loaded.2)
    else
      let r2 := { loaded.2 with players := loaded.2.players.map (fun (p : Player) =>
        { p with reached_exit := false, health := 100 }) }
      let r3 := { r2 with bombs := [] }
      let r4 := spawn_enemies defdb shuf r3
      (true, position_players r4)

/-! ## Room lifecycle handlers (`handlers/room_handlers.py`).
The PostgreSQL repository is abstracted as `RepoBehavior`: each
best-effort call is represented by its observable outcome (`none` for a
raised exception where the handler catches one, a `Bool` success flag
where the repository returns one). -/
/-- Dict assignment for string-keyed association lists. -/
def dictSet {α : Type} (l : List (String × α)) (k : String) (v : α) : List (String × α) :=
  if l.any (fun e => e.1 = k) then
    l.map (fun e => if e.1 = k then (k, v) else e)
  else
    l ++ [(k, v)]

/-- Outcomes of the repository collaborator's calls as observed by the
handlers. -/
structure RepoBehavior where
  list_active_rooms : Option (List GameRoom)
  room_code_exists : String → Bool
  create_room : Bool
  get_room_by_code : String → Option GameRoom
  add_player_to_room : Bool

/-- The handlers' in-memory caches (`self.rooms`, `self.room_codes`). -/
structure ServerState where
  rooms : List (String × GameRoom) := []
  room_codes : List (String × String) := []
  deriving DecidableEq, Repr

/-- Responses emitted by the room handlers. -/
inductive HandlerResponse where
  | room_created (room_code room_id player_id : String) (player_count : Nat)
  | player_joined (player_id username room_code : String) (player_count : Nat)
  | error (message : String)
  deriving DecidableEq, Repr

/-- Whether a response is the `error` shape. -/
def HandlerResponse.isError : HandlerResponse → Bool
  | .error _ => true
  | _ => false

/-- `RoomHandlers.find_player_room_by_socket` over the in-memory cache. -/
def find_player_room_by_socket (st : ServerState) (sid : String) : Option GameRoom :=
  (st.rooms.find? (fun e => (e.2.get_player_by_socket sid).isSome)).map (fun e => e.2)

/-- The PostgreSQL double-join check of `handle_create_room`: an
exception in `list_active_rooms` is caught and logged, behaving as no
hit. -/
def socketInActiveRooms (repo : RepoBehavior) (sid : String) : Bool :=
  match repo.list_active_rooms with
  | none => false
  | some rs => rs.any (fun r => (r.get_player_by_socket sid).isSome)

/-- `RoomHandlers.handle_create_room`.  `room_id` and `player_id` stand
for the generated UUIDs and `codes` for the stream of codes produced by
`generate_room_code`; the `while` loop takes the first code the
repository does not report as existing (when the stream has none the
loop does not terminate, modelled by an error sentinel no theorem
relies on). -/
def handle_create_room (repo : RepoBehavior) (st : ServerState)
    (sid username room_id player_id : String) (codes : List String) :
    HandlerResponse × ServerState :=
  if (find_player_room_by_socket st sid).isSome then
    (.error "Zaten bir odadasiniz. Once odadan cikmalisiniz.", st)
  else
    if socketInActiveRooms repo sid then
      (.error "Zaten bir odadasiniz. Once odadan cikmalisiniz.", st)
    else
      match codes.find? (fun c => ¬ repo.room_code_exists c) with
      | none => (.error "model: code generation diverges", st)
      | some code =>
        let player : Player :=
          { player_id := player_id, username := username, socket_id := sid, health := 100 }
        let room0 : GameRoom :=
          { room_id := room_id, room_code := code, level_id := "level_1"
            level_width := 11, level_height := 9 }
        let room := (room0.add_player player).2
        if ¬ repo.create_room then (.error "Oda olusturulamadi", st)
        else
          (.room_created code room_id player_id 1,
            { rooms := dictSet st.rooms room_id room
              room_codes := dictSet st.room_codes code room_id })

/-- `RoomHandlers.handle_join_room`.  The room is fetched from the
repository (a fresh object, not the cached one); on success the cache
entry is replaced by the fetched room with the new player appended. -/
def handle_join_room (repo : RepoBehavior) (st : ServerState)
    (sid username room_code player_id : String) : HandlerResponse × ServerState :=
  let code := room_code.trim.toUpper
  if (find_player_room_by_socket st sid).isSome then
    (.error "Zaten bir odadasiniz. Once odadan cikmalisiniz.", st)
  else
    match repo.get_room_by_code code with
    | none => (.error "Gecersiz oda kodu", st)
    | some room =>
      if room.is_full then (.error "Oda dolu", st)
      else if room.started then (.error "Oyun zaten baslamis", st)
      else
        let player : Player :=
          { player_id := player_id, username := username, socket_id := sid, health := 100 }
        let room' := (room.add_player player).2
        if ¬ repo.add_player_to_room then (.error "Odaya katilamadi", st)
        else
          (.player_joined player_id username code room'.players.length,
            { rooms := dictSet st.rooms room'.room_id room'
              room_codes := dictSet st.room_codes code room'.room_id })

/-! ## The level cache (`services/level_service.py`).
`get_level` stores the loaded `LevelData` object in the module-level
`_LEVEL_CACHE` and hands the *same object* to every caller; rooms keep
a reference to it in `level_data` and `handle_bomb_explosion` writes to
its `tiles` dict in place.  To model this Python aliasing the cache is
given an explicit heap: `heap` holds the `LevelData` objects, `cache`
maps level ids to heap indices, and a room's `level_data` reference is
a heap index. -/
/-- Heap-plus-cache state of the level service module. -/
structure LevelCacheState where
  heap : List LevelData := []
  cache : List (String × Nat) := []
  deriving DecidableEq, Repr

/-- `level_service.get_level`: a cache hit returns the stored object
(its heap index); a miss runs `_load_level_from_json` (the abstract
`db`), allocates the object and caches it. -/
def get_level (db : String → Option LevelData) (s : LevelCacheState) (lid : String) :
    Option Nat × LevelCacheState :=
  match s.cache.find? (fun e => e.1 = lid) with
  | some e => (some e.2, s)
  | none =>
    match db lid with
    | some ld =>
      (some s.heap.length,
        { heap := s.heap ++ [ld], cache := s.cache ++ [(lid, s.heap.length)] })
    | none => (none, s)

/-- Dereference a heap index. -/
def readLevelRef (s : LevelCacheState) (r : Nat) : LevelData :=
  s.heap.getD r default

/-- A bomb explosion in a room whose `level_data` is the shared heap
object `r`: the object is read, mutated by `handle_bomb_explosion`, and
written back to the same heap cell (Python mutates it in place). -/
def explodeOnSharedLevel (s : LevelCacheState) (r : Nat) (room : GameRoom) (bomb : Bomb) :
    LevelCacheState × GameRoom × Bomb :=
  let room0 := { room with level_data := some (readLevelRef s r) }
  let res := handle_bomb_explosion room0 bomb
  let ldNew := res.1.level_data.getD default
  ({ s with heap := s.heap.set r ldNew }, res.1, res.2)

/-! ## Theorems -/
/-! ### C3: bomb placement legality -/
/-- A player who already has one live bomb elsewhere on the board. -/
def c3Player : Player :=
  { player_id := "p1", username := "alice", socket_id := "s1"
    position := (3, 1), health := 100, bomb_power := 1, bomb_count := 1 }

/-- The live bomb previously placed by `c3Player` at `(1, 1)`. -/
def c3OldBomb : Bomb := { x := 1, y := 1, player_id := "p1" }

/-- A started room in which `c3Player` stands away from their live bomb. -/
def c3Room : GameRoom :=
  { room_id := "r3", room_code := "AAAAAA", players := [c3Player]
    started := true, bombs := [c3OldBomb] }

/-- Room used to exercise the failure branch of `place_bomb`. -/
def c3WitnessRoom : GameRoom :=
  { room_id := "r3w", room_code := "AAAAAB"
    players := [{ c3Player with position := (1, 1) }]
    started := true, bombs := [c3OldBomb] }

/-! ### C5: enemy-contact damage cooldowns -/
/-- C5 helper: a player in sustained contact, used as the failing input. -/
def c5Player : Player :=
  { player_id := "p1", username := "alice", socket_id := "s1"
    position := (2, 2), health := 100 }

/-- C5 helper: the enemy in contact (Manhattan distance 1). -/
def c5Enemy : Enemy :=
  { enemy_id := "e1", enemy_type := "chasing", position := (2, 3)
    spawn_position := (2, 3), health := 100, alive := true }

/-- C5 helper: collision state after 3.4 s of continuous contact with
the same enemy, cooldown expired. -/
def c5States : DamageStates :=
  [("p1", { duration := 17/5, cooldown := 0, last_enemy_id := some "e1" })]

/-! ### C1: bomb damage across the bomb lifecycle -/
/-- C1 scenario: an all-empty 5×5 grid. -/
def c1Level : LevelData := { level_id := "level_1", width := 5, height := 5, tiles := [] }

/-- C1 scenario: the bomb owner, standing one tile below the bomb. -/
def c1Player : Player :=
  { player_id := "p1", username := "alice", socket_id := "s1", position := (1, 2) }

/-- C1 scenario: a living enemy one tile right of the bomb, too far from
the player for contact damage and too early in its move interval to
move. -/
def c1Enemy : Enemy :=
  { enemy_id := "e1", enemy_type := "chasing", position := (2, 1), spawn_position := (2, 1) }

/-- C1 scenario: a bomb about to detonate on the next tick. -/
def c1Bomb : Bomb := { x := 1, y := 1, player_id := "p1", timer := 1/20 }

/-- C1 scenario room. -/
def c1Room : GameRoom :=
  { room_id := "r1", room_code := "AAAAAC", players := [c1Player], started := true
    level_id := "level_1", level_width := 5, level_height := 5
    level_data := some c1Level, bombs := [c1Bomb], enemies := [c1Enemy] }

/-- One 0.1 s tick of the update loop's bomb and enemy passes
(`GameUpdateService.update_game` invokes `update_bombs` then
`update_enemies`). -/
def c1Tick (st : GameRoom × DamageStates) : GameRoom × DamageStates :=
  let r := update_bombs st.1 (1/10)
  let u := update_enemies r (1/10) st.2 []
  (u.1, u.2.1)

/-- C1 witness room: one bomb already in its Exploded state with the
living enemy inside its stored blast set. -/
def c1WitnessRoom : GameRoom :=
  { room_id := "r1w", room_code := "AAAAAD", players := [c1Player], started := true
    level_id := "level_1", level_width := 5, level_height := 5
    level_data := some c1Level
    bombs := [{ x := 1, y := 1, player_id := "p1", timer := 0, exploded := true
                explosion_timer := 1, explosion_tiles := [(2, 1), (1, 1)] }]
    enemies := [c1Enemy] }

/-! ### C6: blast computation -/
/-- C6 scenario: an Exit tile directly right of the bomb, empty beyond. -/
def c6Level : LevelData :=
  { level_id := "level_1", width := 5, height := 5, tiles := [((2, 1), TileType.EXIT)] }

/-- C6 scenario: the bomb owner with blast radius 2. -/
def c6Player : Player :=
  { player_id := "p1", username := "alice", socket_id := "s1"
    position := (1, 1), bomb_power := 2 }

/-- C6 scenario bomb at `(1, 1)`. -/
def c6Bomb : Bomb := { x := 1, y := 1, player_id := "p1" }

/-- C6 scenario room. -/
def c6Room : GameRoom :=
  { room_id := "r6", room_code := "AAAAAE", players := [c6Player], started := true
    level_id := "level_1", level_width := 5, level_height := 5
    level_data := some c6Level, bombs := [c6Bomb] }

/-- Position reached after `r` steps of a blast ray. -/
def rayPos (bx bY dx dy r : Int) : Int × Int := (bx + dx * r, bY + dy * r)

/-- The in-bounds check of the explosion loop at ray step `r`. -/
def rayStepInB (w h bx bY dx dy r : Int) : Prop :=
  ¬ (bx + dx * r < 0 ∨ bx + dx * r ≥ w ∨ bY + dy * r < 0 ∨ bY + dy * r ≥ h)

instance (w h bx bY dx dy r : Int) : Decidable (rayStepInB w h bx bY dx dy r) := by
  unfold rayStepInB
  infer_instance

/-- The tile the explosion loop reads at ray step `r`. -/
def rayStepTile (ld : LevelData) (bx bY dx dy r : Int) : TileType :=
  ld.tile_at (bx + dx * r) (bY + dy * r)

/-- The claim's per-direction blast condition, read against the grid at
detonation time: step `r` is in the blast set iff all earlier steps are
in bounds and pass-through (`EMPTY`, or `EXIT` passed without
inclusion) and step `r` is in bounds and `EMPTY` or the first
`BREAKABLE`. -/
def blastClaimCond (w h bx bY : Int) (ld : LevelData) (radius : Nat) (d : Int × Int)
    (p : Int × Int) : Prop :=
  ∃ r : Int, 1 ≤ r ∧ r < 1 + (radius : Int) ∧ p = rayPos bx bY d.1 d.2 r ∧
    (∀ j : Int, 1 ≤ j → j < r → rayStepInB w h bx bY d.1 d.2 j ∧
      (rayStepTile ld bx bY d.1 d.2 j = TileType.EMPTY ∨
        rayStepTile ld bx bY d.1 d.2 j = TileType.EXIT)) ∧
    rayStepInB w h bx bY d.1 d.2 r ∧
    (rayStepTile ld bx bY d.1 d.2 r = TileType.EMPTY ∨
      rayStepTile ld bx bY d.1 d.2 r = TileType.BREAKABLE)

/-! ### C7: starting a room whose level has no Exit tile -/
/-- C7 scenario: a grid with no `EXIT` tile anywhere (all interior
tiles default to `EMPTY`). -/
def c7Level : LevelData := { level_id := "level_1", width := 5, height := 5, tiles := [] }

/-- C7 scenario: the level source resolves `level_1` to the exit-free
grid. -/
def c7Db : String → Option LevelData :=
  fun lid => if lid = "level_1" then some c7Level else none

/-- C7 scenario: the two players of a full room. -/
def c7P1 : Player := { player_id := "p1", username := "alice", socket_id := "s1" }

/-- Second player of the C7 room. -/
def c7P2 : Player := { player_id := "p2", username := "bob", socket_id := "s2" }

/-- C7 scenario: a full, not-yet-started room. -/
def c7Room : GameRoom :=
  { room_id := "r7", room_code := "AAAAAF", players := [c7P1, c7P2]
    started := false, level_id := "level_1" }

/-! ### C2: level-source determinism -/
/-- C2 scenario: a grid with a breakable wall one tile right of where
the bomb will sit. -/
def c2Level : LevelData :=
  { level_id := "level_1", width := 5, height := 5, tiles := [((2, 1), TileType.BREAKABLE)] }

/-- C2 scenario: the JSON-backed loader resolving `level_1`. -/
def c2Db : String → Option LevelData :=
  fun lid => if lid = "level_1" then some c2Level else none

/-- C2 scenario: the bomb owner (blast radius 1). -/
def c2Player : Player :=
  { player_id := "p1", username := "alice", socket_id := "s1", position := (1, 3) }

/-- C2 scenario bomb at `(1, 1)`. -/
def c2Bomb : Bomb := { x := 1, y := 1, player_id := "p1" }

/-- C2 scenario: a room in some other game, holding a reference to the
cached grid object. -/
def c2Room : GameRoom :=
  { room_id := "r2", room_code := "AAAAAG", players := [c2Player], started := true
    level_id := "level_1", level_width := 5, level_height := 5, bombs := [c2Bomb] }

/-! ### C4: persistence failures in the room-lifecycle handlers -/
/-- C4 scenario: the one-player room the failing repository returns for
any join code. -/
def c4DbRoom : GameRoom :=
  { room_id := "r4", room_code := "AAAAAH", players := [c7P1], started := false }

/-- C4 scenario: a repository whose writes fail (connection down); the
read-side checks report no conflicts. -/
def c4RepoFail : RepoBehavior :=
  { list_active_rooms := some []
    room_code_exists := fun _ => false
    create_room := false
    get_room_by_code := fun _ => some c4DbRoom
    add_player_to_room := false }

/-- C8 helper: a room that is already full. -/
def c8FullRoom : GameRoom :=
  { room_id := "r8", room_code := "AAAAAJ", players := [c7P1, c7P2] }

/-- C8 helper: a repository returning the full room for any code. -/
def c8Repo : RepoBehavior :=
  { c4RepoFail with get_room_by_code := fun _ => some c8FullRoom }

/-- C9 witness: level-2 grid. -/
def c9Level2 : LevelData := { level_id := "level_2", width := 5, height := 5, tiles := [] }

/-- C9 witness: a level source resolving `level_2`. -/
def c9Db : String → Option LevelData :=
  fun lid => if lid = "level_2" then some c9Level2 else none

/-- C9 witness: a started room whose only living player reached the
exit. -/
def c9Room : GameRoom :=
  { room_id := "r9", room_code := "AAAAAK"
    players := [{ c7P1 with reached_exit := true }]
    started := true, level_id := "level_1" }

/-- Level for the C10 scenario: a 4×3 all-empty grid with the Exit at
(2, 1). -/
def c10Level : LevelData :=
  { level_id := "level_1"
    width := 4
    height := 3
    tiles := [((2, 1), TileType.EXIT)] }

/-- Room for the C10 scenario: one started room whose single player
stands at (1, 1), next to the Exit. -/
def c10Room : GameRoom :=
  { room_id := "r"
    room_code := "CODE10"
    players := [{ player_id := "p1", username := "u1", socket_id := "s1",
                  position := (1, 1) }]
    started := true
    level_id := "level_1"
    level_width := 4
    level_height := 3
    level_data := some c10Level }

/-- C3 counterexample: `c3Player`'s bomb-count limit is 1 and they
already have 1 unexploded bomb, so by the claim `place_bomb` must fail;
yet it succeeds and appends a second bomb — the bomb-count condition is
not enforced. -/
theorem c3_counterexample :
    c3Player.bomb_count = 1 ∧
    c3Room.bombs.countP (fun b => ¬ b.exploded ∧ b.player_id = c3Player.player_id) = 1 ∧
    (place_bomb c3Room c3Player).1.isSome = true ∧
    (place_bomb c3Room c3Player).2.bombs.length = 2 := by
  decide

/-- `can_place_bomb` holds exactly when no unexploded bomb occupies the
player's tile. -/
theorem can_place_bomb_iff (room : GameRoom) (player : Player) :
    can_place_bomb room player = true ↔
      ¬ ∃ b ∈ room.bombs, ¬ b.exploded ∧ b.x = player.position.1 ∧ b.y = player.position.2 := by
  simp [can_place_bomb]
  constructor
  · intro h
    rintro b hb he hx hy
    exact absurd (h b hb hx hy) (by simpa using he)
  · intro h b hb hx hy
    by_contra he
    exact h b hb (by simpa using he) hx hy

/-- C3 (amended): `place_bomb` succeeds iff no unexploded bomb occupies
the acting player's tile — the bomb-count limit is never consulted —
and on failure no bomb is created and the room is unchanged. -/
theorem c3_place_bomb_iff_tile_free (room : GameRoom) (player : Player) :
    ((place_bomb room player).1.isSome ↔
      ¬ ∃ b ∈ room.bombs, ¬ b.exploded ∧ b.x = player.position.1 ∧ b.y = player.position.2) ∧
    ((place_bomb room player).1 = none → (place_bomb room player).2 = room) ∧
    ((place_bomb room player).1.isSome →
      (place_bomb room player).2.bombs.length = room.bombs.length + 1) := by
  cases h : can_place_bomb room player with
  | true =>
    rw [← can_place_bomb_iff room player]
    simp [place_bomb, h]
  | false =>
    have h2 := can_place_bomb_iff room player
    rw [h] at h2
    simp only [Bool.false_eq_true, false_iff, not_not] at h2
    simp [place_bomb, h]
    simpa using h2

/-- C3 witness: at a concrete room with a live bomb under the player,
placement fails and the room is returned unchanged. -/
theorem c3_witness :
    (place_bomb c3WitnessRoom { c3Player with position := (1, 1) }).1 = none ∧
    (place_bomb c3WitnessRoom { c3Player with position := (1, 1) }).2 = c3WitnessRoom := by
  refine ⟨by decide, ?_⟩
  exact (c3_place_bomb_iff_tile_free c3WitnessRoom
    { c3Player with position := (1, 1) }).2.1 (by decide)

/-- C5: evaluating the code at the failing input.  The player's
continuous-contact duration with the same enemy reaches 3.5 s — past
the 3.0 s sustained threshold — when damage is applied, yet the
cooldown installed afterwards is the 0.5 s initial cooldown, not the
0.2 s sustained one, and the duration accumulator is reset to 0
(`apply_damage` zeroes the duration before `reset_damage_cooldown`
reads it, so the sustained branch is unreachable). -/
theorem c5_sustained_cooldown_bug :
    (check_and_apply_damage c5States c5Player c5Enemy true (1/10)).1 = true ∧
    (statesGet (check_and_apply_damage c5States c5Player c5Enemy true (1/10)).2.2 "p1") =
      some { duration := 0, cooldown := DAMAGE_COOLDOWN_INITIAL, last_enemy_id := some "e1" } ∧
    (17/5 : ℚ) + 1/10 ≥ COLLISION_THRESHOLD ∧
    DAMAGE_COOLDOWN_INITIAL > DAMAGE_COOLDOWN_CONTINUOUS := by
  have hne : ("e1" : String) ≠ "" := by decide
  norm_num [check_and_apply_damage, check_proximity, update_collision, apply_damage,
    should_apply_damage, reset_damage_cooldown, statesGet, statesSet, c5States,
    c5Player, c5Enemy, COLLISION_THRESHOLD, DAMAGE_COOLDOWN_INITIAL,
    DAMAGE_COOLDOWN_CONTINUOUS, DAMAGE_AMOUNT, List.find?, hne]

/-- C1 counterexample: the bomb explodes on the first tick and remains
in its fading state on the second; the enemy in the blast set takes 50
damage on the first tick (health 100 → 50) and *again* on the second
(50 → 0), while the player takes the 20 damage only once (health 80
after both ticks).  Under the claim the enemy's health after the second
tick would still be 50. -/
theorem c1_counterexample :
    ((c1Tick (c1Room, [])).1.enemies.map Enemy.health = [50]) ∧
    ((c1Tick (c1Tick (c1Room, []))).1.enemies.map Enemy.health = [0]) ∧
    ((c1Tick (c1Tick (c1Room, []))).1.players.map Player.health = [80]) := by
  norm_num [c1Tick, update_bombs, updateBombsGo, handle_bomb_explosion, explodeAllRays,
    explodeRay, explosionDirections, tilesGet, tilesSet, LevelData.tile_at,
    update_enemies, updateEnemiesGo, steppedEnemy, steppedRng, enemyBombDamage,
    nearestPlayer, updatePlayersContact, check_and_apply_damage, check_proximity,
    update_collision, apply_damage, should_apply_damage, statesGet, statesSet,
    move_interval, manhattan, c1Room, c1Level, c1Player, c1Enemy, c1Bomb,
    GameRoom.get_player, List.find?]

/-- A tick over bombs that have all already exploded never calls
`handle_bomb_explosion`, so the room (players included) is untouched. -/
theorem updateBombsGo_all_exploded (delta : ℚ) :
    ∀ (bs : List Bomb) (room : GameRoom), (∀ b ∈ bs, b.exploded = true) →
      (updateBombsGo delta bs room).2.1 = room
  | [], _, _ => rfl
  | b :: rest, room, h => by
    have hb : b.exploded = true := h b (by simp)
    have ih := updateBombsGo_all_exploded delta rest room (fun x hx => h x (by simp [hx]))
    simp only [updateBombsGo, hb]
    simpa using ih

/-- Unfolding one bomb of the bomb-collision fold. -/
theorem enemyBombDamage_cons (b : Bomb) (bs : List Bomb) (e : Enemy) :
    enemyBombDamage (b :: bs) e =
      enemyBombDamage bs
        (if b.exploded ∧ e.position ∈ b.explosion_tiles then
          { e with
            health := max 0 (e.health - 50),
            alive := if max 0 (e.health - 50) ≤ 0 then false else e.alive }
        else e) := rfl

/-- The per-tick bomb-collision fold never moves the enemy. -/
theorem enemyBombDamage_position :
    ∀ (bs : List Bomb) (e : Enemy), (enemyBombDamage bs e).position = e.position
  | [], _ => rfl
  | b :: rest, e => by
    rw [enemyBombDamage_cons, enemyBombDamage_position rest]
    split <;> rfl

/-- The bomb-collision fold applies 50 damage once per exploded bomb
whose blast set contains the enemy's position, clamping at 0. -/
theorem enemyBombDamage_health :
    ∀ (bs : List Bomb) (e : Enemy), 0 ≤ e.health →
      (enemyBombDamage bs e).health =
        max 0 (e.health -
          50 * (bs.countP (fun b => b.exploded ∧ e.position ∈ b.explosion_tiles) : Int))
  | [], e, hh => by
    simp only [enemyBombDamage, List.foldl_nil, List.countP_nil]
    omega
  | b :: rest, e, hh => by
    rw [enemyBombDamage_cons, List.countP_cons]
    by_cases hb : b.exploded = true ∧ e.position ∈ b.explosion_tiles
    · rw [if_pos hb, enemyBombDamage_health rest _ (le_max_left _ _)]
      have hpb : (fun b => decide (b.exploded = true ∧ e.position ∈ b.explosion_tiles)) b =
          true := by simpa using hb
      simp only [hpb, if_true]
      have hk : (0 : Int) ≤
          (rest.countP fun b => decide (b.exploded = true ∧ e.position ∈ b.explosion_tiles)) :=
        Int.ofNat_nonneg _
      push_cast
      omega
    · rw [if_neg hb, enemyBombDamage_health rest e hh]
      have hpb : (fun b => decide (b.exploded = true ∧ e.position ∈ b.explosion_tiles)) b =
          false := by simpa using hb
      simp [hpb]

/-- Movement never changes the health computed by the bomb-damage
stage of the iteration. -/
theorem steppedEnemy_health (delta : ℚ) (i : Nat) (e : Enemy) (room : GameRoom)
    (rng : List (List (Int × Int))) :
    (steppedEnemy delta i e room rng).health = (enemyBombDamage room.bombs e).health := by
  unfold steppedEnemy
  dsimp only
  split
  · split <;> rfl
  · rfl

/-- Loop indices below the cursor are never touched again by
`updateEnemiesGo`. -/
theorem updateEnemiesGo_get_lt (delta : ℚ) (prev : List (String × (Int × Int))) :
    ∀ (fuel i0 : Nat) (room : GameRoom) (s : DamageStates) (rng : List (List (Int × Int)))
      (j : Nat), j < i0 →
      (updateEnemiesGo delta prev fuel i0 room s rng).1.enemies.get? j = room.enemies.get? j
  | 0, _, _, _, _, _, _ => rfl
  | fuel + 1, i0, room, s, rng, j, hj => by
    simp only [updateEnemiesGo]
    cases hre : room.enemies.get? i0 with
    | none => rfl
    | some e =>
      dsimp only
      rcases Bool.eq_false_or_eq_true e.alive with hb | hb
      · rw [if_neg (by simp [hb])]
        rw [updateEnemiesGo_get_lt delta prev fuel (i0 + 1) _ _ _ j (Nat.lt_succ_of_lt hj)]
        simp only [List.get?_eq_getElem?]
        rw [List.getElem?_set_ne (by omega : i0 ≠ j)]
      · rw [if_pos (by simp [hb])]
        exact updateEnemiesGo_get_lt delta prev fuel (i0 + 1) room s rng j (Nat.lt_succ_of_lt hj)

/-- Through the whole loop, the enemy at index `i` ends the tick with
exactly the health assigned by the bomb-damage stage applied to the
loop's original bombs (which the loop never modifies). -/
theorem updateEnemiesGo_health (delta : ℚ) (prev : List (String × (Int × Int))) :
    ∀ (fuel i0 i : Nat) (room : GameRoom) (s : DamageStates) (rng : List (List (Int × Int)))
      (e : Enemy), i0 ≤ i → i < i0 + fuel →
      room.enemies.get? i = some e → e.alive = true →
      ∃ e', (updateEnemiesGo delta prev fuel i0 room s rng).1.enemies.get? i = some e' ∧
        e'.health = (enemyBombDamage room.bombs e).health
  | 0, _, _, _, _, _, _, h1, h2, _, _ => absurd h2 (by omega)
  | fuel + 1, i0, i, room, s, rng, e, h1, h2, he, ha => by
    simp only [updateEnemiesGo]
    rcases eq_or_lt_of_le h1 with heq | hlt
    · subst heq
      rw [he]
      dsimp only
      rw [if_neg (by simp [ha])]
      rw [updateEnemiesGo_get_lt delta prev fuel (i0 + 1) _ _ _ i0 (Nat.lt_succ_self i0)]
      have hlen : i0 < room.enemies.length := (List.get?_eq_some.mp he).1
      refine ⟨steppedEnemy delta i0 e room rng, ?_, steppedEnemy_health delta i0 e room rng⟩
      simp only [List.get?_eq_getElem?]
      rw [List.getElem?_set_self']
      simp [List.getElem?_eq_getElem hlen]
    · cases hre : room.enemies.get? i0 with
      | none =>
        exfalso
        have hn : room.enemies.length ≤ i0 := List.get?_eq_none.mp hre
        have hi : i < room.enemies.length := (List.get?_eq_some.mp he).1
        omega
      | some e0 =>
        dsimp only
        rcases Bool.eq_false_or_eq_true e0.alive with hb | hb
        · rw [if_neg (by simp [hb])]
          have he' : (room.enemies.set i0 (steppedEnemy delta i0 e0 room rng)).get? i =
              some e := by
            simp only [List.get?_eq_getElem?]
            rw [List.getElem?_set_ne (by omega : i0 ≠ i)]
            simpa [List.get?_eq_getElem?] using he
          exact updateEnemiesGo_health delta prev fuel (i0 + 1) i _ _ _ e hlt
            (by omega) he' ha
        · rw [if_pos (by simp [hb])]
          exact updateEnemiesGo_health delta prev fuel (i0 + 1) i room s rng e hlt
            (by omega) he ha

/-- C1 (amended): player blast damage is applied only at the detonation
transition — a tick in which every bomb has already exploded leaves all
player healths (indeed the whole player list) unchanged — but enemy
blast damage is re-applied on *every* enemy-update tick: a living enemy
ends any such tick with 50 fresh damage per exploded bomb whose blast
set contains its position, however many ticks the bomb has already
spent in its Exploded/Fading state. -/
theorem c1_damage_per_bomb_lifecycle :
    (∀ (room : GameRoom) (delta : ℚ), (∀ b ∈ room.bombs, b.exploded = true) →
      (update_bombs room delta).players = room.players) ∧
    (∀ (room : GameRoom) (delta : ℚ) (s : DamageStates) (rng : List (List (Int × Int)))
      (i : Nat) (e : Enemy) (ld : LevelData),
      room.level_data = some ld →
      room.enemies.get? i = some e → e.alive = true → 0 ≤ e.health →
      ∃ e', (update_enemies room delta s rng).1.enemies.get? i = some e' ∧
        e'.health = max 0 (e.health -
          50 * (room.bombs.countP
            (fun b => b.exploded ∧ e.position ∈ b.explosion_tiles) : Int))) := by
  constructor
  · intro room delta h
    unfold update_bombs
    dsimp only
    rw [updateBombsGo_all_exploded delta room.bombs room h]
  · intro room delta s rng i e ld hld he ha hh
    unfold update_enemies
    rw [hld]
    dsimp only
    obtain ⟨e', h1, h2⟩ := updateEnemiesGo_health delta _ room.enemies.length 0 i room s rng e
      (Nat.zero_le i) (by simpa using (List.get?_eq_some.mp he).1) he ha
    exact ⟨e', h1, by rw [h2, enemyBombDamage_health room.bombs e hh]⟩

/-- C1 witness: concrete instantiation of both halves of the amended
statement. -/
theorem c1_witness :
    (update_bombs c1WitnessRoom (1/10)).players = c1WitnessRoom.players ∧
    ∃ e', (update_enemies c1WitnessRoom (1/10) [] []).1.enemies.get? 0 = some e' ∧
      e'.health = max 0 (c1Enemy.health -
        50 * (c1WitnessRoom.bombs.countP
          (fun b => b.exploded ∧ c1Enemy.position ∈ b.explosion_tiles) : Int)) :=
  ⟨c1_damage_per_bomb_lifecycle.1 c1WitnessRoom (1/10) (by decide),
    c1_damage_per_bomb_lifecycle.2 c1WitnessRoom (1/10) [] [] 0 c1Enemy c1Level rfl rfl rfl
      (by decide)⟩

/-- C6 counterexample: the Exit tile one step right of the bomb is
*not* in the computed blast set although the tile two steps right —
reached through it — is: the code's loop falls through an `EXIT` tile
without appending it, while the claim says Exit tiles are included. -/
theorem c6_counterexample :
    c6Level.tile_at 2 1 = TileType.EXIT ∧
    ((2 : Int), (1 : Int)) ∉ (handle_bomb_explosion c6Room c6Bomb).2.explosion_tiles ∧
    ((3 : Int), (1 : Int)) ∈ (handle_bomb_explosion c6Room c6Bomb).2.explosion_tiles := by
  decide

/-- Membership in one direction of the blast: a tile at step `r` is
appended iff every earlier step of the ray is in bounds and reads
`EMPTY` or `EXIT` (the two fall-through cases) and step `r` itself is
in bounds and reads `EMPTY` or `BREAKABLE` (the two appending cases). -/
theorem explodeRay_mem_iff (w h bx bY dx dy : Int) :
    ∀ (fuel : Nat) (r0 : Int) (ld : LevelData) (p : Int × Int),
      p ∈ (explodeRay w h bx bY dx dy r0 fuel ld).1 ↔
        ∃ r : Int, r0 ≤ r ∧ r < r0 + fuel ∧ p = rayPos bx bY dx dy r ∧
          (∀ j : Int, r0 ≤ j → j < r →
            rayStepInB w h bx bY dx dy j ∧
            (rayStepTile ld bx bY dx dy j = TileType.EMPTY ∨
              rayStepTile ld bx bY dx dy j = TileType.EXIT)) ∧
          rayStepInB w h bx bY dx dy r ∧
          (rayStepTile ld bx bY dx dy r = TileType.EMPTY ∨
            rayStepTile ld bx bY dx dy r = TileType.BREAKABLE)
  | 0, r0, ld, p => by
    simp only [explodeRay, List.not_mem_nil, false_iff, not_exists]
    intro r
    push_cast
    omega
  | fuel + 1, r0, ld, p => by
    simp only [explodeRay]
    by_cases hB : bx + dx * r0 < 0 ∨ bx + dx * r0 ≥ w ∨ bY + dy * r0 < 0 ∨ bY + dy * r0 ≥ h
    · rw [if_pos hB]
      simp only [List.not_mem_nil, false_iff, not_exists]
      rintro r ⟨hr0, _, _, hpass, hinb, _⟩
      rcases eq_or_lt_of_le hr0 with rfl | hlt
      · exact hinb hB
      · exact (hpass r0 le_rfl hlt).1 hB
    · rw [if_neg hB]
      have hInB : rayStepInB w h bx bY dx dy r0 := hB
      cases hT : ld.tile_at (bx + dx * r0) (bY + dy * r0) with
      | UNBREAKABLE =>
        simp only [List.not_mem_nil, false_iff, not_exists]
        rintro r ⟨hr0, _, _, hpass, _, hstop⟩
        rcases eq_or_lt_of_le hr0 with rfl | hlt
        · rcases hstop with hs | hs <;> rw [rayStepTile, hT] at hs <;> exact absurd hs (by simp)
        · rcases (hpass r0 le_rfl hlt).2 with hs | hs <;>
            rw [rayStepTile, hT] at hs <;> exact absurd hs (by simp)
      | HARD =>
        simp only [List.not_mem_nil, false_iff, not_exists]
        rintro r ⟨hr0, _, _, hpass, _, hstop⟩
        rcases eq_or_lt_of_le hr0 with rfl | hlt
        · rcases hstop with hs | hs <;> rw [rayStepTile, hT] at hs <;> exact absurd hs (by simp)
        · rcases (hpass r0 le_rfl hlt).2 with hs | hs <;>
            rw [rayStepTile, hT] at hs <;> exact absurd hs (by simp)
      | BREAKABLE =>
        simp only [List.mem_singleton]
        constructor
        · rintro rfl
          refine ⟨r0, le_rfl, by push_cast; omega, rfl, ?_, hInB, ?_⟩
          · intro j hj1 hj2
            omega
          · right
            rw [rayStepTile, hT]
        · rintro ⟨r, hr0, _, hp, hpass, _, hstop⟩
          rcases eq_or_lt_of_le hr0 with rfl | hlt
          · exact hp
          · rcases (hpass r0 le_rfl hlt).2 with hs | hs <;>
              rw [rayStepTile, hT] at hs <;> exact absurd hs (by simp)
      | EMPTY =>
        simp only [List.mem_cons]
        rw [explodeRay_mem_iff w h bx bY dx dy fuel (r0 + 1) ld p]
        constructor
        · rintro (rfl | ⟨r, hr1, hr2, hp, hpass, hinb, hstop⟩)
          · refine ⟨r0, le_rfl, by push_cast; omega, rfl, ?_, hInB, ?_⟩
            · intro j hj1 hj2
              omega
            · left
              rw [rayStepTile, hT]
          · refine ⟨r, by omega, by push_cast at hr2 ⊢; omega, hp, ?_, hinb, hstop⟩
            intro j hj1 hj2
            rcases eq_or_lt_of_le hj1 with rfl | hjlt
            · exact ⟨hInB, Or.inl (by rw [rayStepTile, hT])⟩
            · exact hpass j (by omega) hj2
        · rintro ⟨r, hr0, hr2, hp, hpass, hinb, hstop⟩
          rcases eq_or_lt_of_le hr0 with rfl | hlt
          · exact Or.inl hp
          · refine Or.inr ⟨r, by omega, by push_cast at hr2 ⊢; omega, hp, ?_, hinb, hstop⟩
            intro j hj1 hj2
            exact hpass j (by omega) hj2
      | EXIT =>
        rw [explodeRay_mem_iff w h bx bY dx dy fuel (r0 + 1) ld p]
        constructor
        · rintro ⟨r, hr1, hr2, hp, hpass, hinb, hstop⟩
          refine ⟨r, by omega, by push_cast at hr2 ⊢; omega, hp, ?_, hinb, hstop⟩
          intro j hj1 hj2
          rcases eq_or_lt_of_le hj1 with rfl | hjlt
          · exact ⟨hInB, Or.inr (by rw [rayStepTile, hT])⟩
          · exact hpass j (by omega) hj2
        · rintro ⟨r, hr0, hr2, hp, hpass, hinb, hstop⟩
          rcases eq_or_lt_of_le hr0 with rfl | hlt
          · rcases hstop with hs | hs <;> rw [rayStepTile, hT] at hs <;> exact absurd hs (by simp)
          · refine ⟨r, by omega, by push_cast at hr2 ⊢; omega, hp, ?_, hinb, hstop⟩
            intro j hj1 hj2
            exact hpass j (by omega) hj2

/-- Dict read on the empty association list. -/
theorem tilesGet_nil (q : Int × Int) : tilesGet [] q = TileType.EMPTY := rfl

/-- Dict read on a cons cell. -/
theorem tilesGet_cons (e : (Int × Int) × TileType) (ts : List ((Int × Int) × TileType))
    (q : Int × Int) :
    tilesGet (e :: ts) q = if e.1 = q then e.2 else tilesGet ts q := by
  unfold tilesGet
  by_cases h : e.1 = q
  · rw [List.find?_cons_of_pos _ (by simpa using h), if_pos h]
  · rw [List.find?_cons_of_neg _ (by simpa using h), if_neg h]

/-- Dict write then read at the same key. -/
theorem tilesGet_tilesSet_self (ts : List ((Int × Int) × TileType)) (p : Int × Int)
    (t : TileType) : tilesGet (tilesSet ts p t) p = t := by
  unfold tilesSet
  by_cases h : ts.any (fun e => e.1 = p)
  · rw [if_pos h]
    induction ts with
    | nil => simp at h
    | cons e rest ih =>
      by_cases he : e.1 = p
      · rw [List.map_cons, if_pos he, tilesGet_cons, if_pos rfl]
      · have h' : rest.any (fun e => e.1 = p) := by
          rcases (by simpa using h : e.1 = p ∨ rest.any (fun e => e.1 = p) = true) with hc | hc
          · exact absurd hc he
          · exact hc
        rw [List.map_cons, if_neg he, tilesGet_cons, if_neg he]
        exact ih h'
  · rw [if_neg h]
    induction ts with
    | nil => rw [List.nil_append, tilesGet_cons, if_pos rfl]
    | cons e rest ih =>
      have he : ¬ e.1 = p := fun hc => h (by simp [List.any_cons, hc])
      have h' : ¬ rest.any (fun e => e.1 = p) := fun hc => h (by simp [List.any_cons, hc])
      rw [List.cons_append, tilesGet_cons, if_neg he]
      exact ih h'

/-- Dict write then read at a different key. -/
theorem tilesGet_tilesSet_ne (q p : Int × Int) (hne : q ≠ p)
    (ts : List ((Int × Int) × TileType)) (t : TileType) :
    tilesGet (tilesSet ts p t) q = tilesGet ts q := by
  have hpq : ¬ (p, t).1 = q := fun hc => hne hc.symm
  unfold tilesSet
  by_cases h : ts.any (fun e => e.1 = p)
  · rw [if_pos h]
    clear h
    induction ts with
    | nil => rfl
    | cons e rest ih =>
      by_cases he : e.1 = p
      · have hq : ¬ e.1 = q := by rw [he]; exact fun hc => hne hc.symm
        rw [List.map_cons, if_pos he, tilesGet_cons, if_neg hpq, tilesGet_cons, if_neg hq]
        exact ih
      · rw [List.map_cons, if_neg he, tilesGet_cons, tilesGet_cons]
        by_cases hq : e.1 = q
        · rw [if_pos hq, if_pos hq]
        · rw [if_neg hq, if_neg hq]
          exact ih
  · rw [if_neg h]
    induction ts with
    | nil => rw [List.nil_append, tilesGet_cons, if_neg hpq, tilesGet_nil]
    | cons e rest ih =>
      have h' : ¬ rest.any (fun e => e.1 = p) := fun hc => h (by simp [List.any_cons, hc])
      rw [List.cons_append, tilesGet_cons, tilesGet_cons]
      by_cases hq : e.1 = q
      · rw [if_pos hq, if_pos hq]
      · rw [if_neg hq, if_neg hq]
        exact ih h'

/-- The explosion ray reads tiles only before it writes, and never
changes a tile off its own line: the resulting grid agrees with the
input grid at every position that is not a ray step. -/
theorem explodeRay_snd_tile_at (w h bx bY dx dy : Int) :
    ∀ (fuel : Nat) (r0 : Int) (ld : LevelData) (qx qy : Int),
      (∀ r : Int, r0 ≤ r → (qx, qy) ≠ (bx + dx * r, bY + dy * r)) →
      (explodeRay w h bx bY dx dy r0 fuel ld).2.tile_at qx qy = ld.tile_at qx qy
  | 0, _, _, _, _, _ => rfl
  | fuel + 1, r0, ld, qx, qy, hq => by
    simp only [explodeRay]
    by_cases hB : bx + dx * r0 < 0 ∨ bx + dx * r0 ≥ w ∨ bY + dy * r0 < 0 ∨ bY + dy * r0 ≥ h
    · rw [if_pos hB]
    · rw [if_neg hB]
      have hq' : ∀ r : Int, r0 + 1 ≤ r → (qx, qy) ≠ (bx + dx * r, bY + dy * r) :=
        fun r hr => hq r (by omega)
      cases hT : ld.tile_at (bx + dx * r0) (bY + dy * r0) with
      | UNBREAKABLE => rfl
      | HARD => rfl
      | BREAKABLE =>
        dsimp only
        unfold LevelData.tile_at
        dsimp only
        by_cases hOut : qx < 0 ∨ qy < 0 ∨ qx ≥ ld.width ∨ qy ≥ ld.height
        · rw [if_pos hOut, if_pos hOut]
        · rw [if_neg hOut, if_neg hOut]
          exact tilesGet_tilesSet_ne (qx, qy) _ (hq r0 le_rfl) ld.tiles TileType.EMPTY
      | EMPTY =>
        dsimp only
        exact explodeRay_snd_tile_at w h bx bY dx dy fuel (r0 + 1) ld qx qy hq'
      | EXIT =>
        exact explodeRay_snd_tile_at w h bx bY dx dy fuel (r0 + 1) ld qx qy hq'

/-- A breakable tile included in a ray is converted to `EMPTY` in the
ray's resulting grid. -/
theorem explodeRay_breakable_to_empty (w h bx bY dx dy : Int) :
    ∀ (fuel : Nat) (r0 : Int) (ld : LevelData) (p : Int × Int),
      p ∈ (explodeRay w h bx bY dx dy r0 fuel ld).1 →
      ld.tile_at p.1 p.2 = TileType.BREAKABLE →
      (explodeRay w h bx bY dx dy r0 fuel ld).2.tile_at p.1 p.2 = TileType.EMPTY
  | 0, _, _, _, hp, _ => absurd hp (List.not_mem_nil _)
  | fuel + 1, r0, ld, p, hp, hbr => by
    rw [explodeRay] at hp ⊢
    by_cases hB : bx + dx * r0 < 0 ∨ bx + dx * r0 ≥ w ∨ bY + dy * r0 < 0 ∨ bY + dy * r0 ≥ h
    · rw [if_pos hB] at hp
      exact absurd hp (List.not_mem_nil _)
    · rw [if_neg hB] at hp ⊢
      cases hT : ld.tile_at (bx + dx * r0) (bY + dy * r0) with
      | UNBREAKABLE =>
        rw [hT] at hp
        dsimp only at hp
        exact absurd hp (List.not_mem_nil _)
      | HARD =>
        rw [hT] at hp
        dsimp only at hp
        exact absurd hp (List.not_mem_nil _)
      | BREAKABLE =>
        rw [hT] at hp
        dsimp only at hp ⊢
        rcases List.mem_singleton.mp hp with rfl
        unfold LevelData.tile_at at hT ⊢
        dsimp only at hT ⊢
        by_cases hC : bx + dx * r0 < 0 ∨ bY + dy * r0 < 0 ∨
            bx + dx * r0 ≥ ld.width ∨ bY + dy * r0 ≥ ld.height
        · rw [if_pos hC] at hT
          exact absurd hT (by simp)
        · rw [if_neg hC]
          exact tilesGet_tilesSet_self ld.tiles _ TileType.EMPTY
      | EMPTY =>
        rw [hT] at hp
        dsimp only at hp ⊢
        rcases List.mem_cons.mp hp with rfl | hp'
        · exact absurd (hbr.symm.trans hT) (by simp)
        · exact explodeRay_breakable_to_empty w h bx bY dx dy fuel (r0 + 1) ld _ hp' hbr
      | EXIT =>
        rw [hT] at hp
        dsimp only at hp ⊢
        exact explodeRay_breakable_to_empty w h bx bY dx dy fuel (r0 + 1) ld p hp hbr

/-- A ray step is never the bomb's own tile. -/
theorem rayPos_ne_center (bx bY : Int) (d : Int × Int) (hd : d ∈ explosionDirections)
    (r : Int) (hr : 1 ≤ r) : rayPos bx bY d.1 d.2 r ≠ (bx, bY) := by
  simp only [explosionDirections, List.mem_cons, List.not_mem_nil, or_false] at hd
  rcases hd with rfl | rfl | rfl | rfl <;>
    · intro hc
      simp only [rayPos, Prod.mk.injEq] at hc
      omega

/-- Steps of two distinct blast directions never coincide. -/
theorem rayLine_disjoint (bx bY : Int) (d1 d2 : Int × Int)
    (h1 : d1 ∈ explosionDirections) (h2 : d2 ∈ explosionDirections) (hne : d1 ≠ d2)
    (r s : Int) (hr : 1 ≤ r) (hs : 1 ≤ s) :
    rayPos bx bY d1.1 d1.2 r ≠ rayPos bx bY d2.1 d2.2 s := by
  simp only [explosionDirections, List.mem_cons, List.not_mem_nil, or_false] at h1 h2
  rcases h1 with rfl | rfl | rfl | rfl <;> rcases h2 with rfl | rfl | rfl | rfl <;>
    first
    | exact absurd rfl hne
    | · intro hc
        simp only [rayPos, Prod.mk.injEq] at hc
        omega

/-- Membership in a blast ray only depends on the tiles along the
ray's own line. -/
theorem explodeRay_mem_agree (w h bx bY dx dy : Int) (fuel : Nat) (ld ld' : LevelData)
    (hag : ∀ r : Int, 1 ≤ r →
      rayStepTile ld' bx bY dx dy r = rayStepTile ld bx bY dx dy r) (p : Int × Int) :
    p ∈ (explodeRay w h bx bY dx dy 1 fuel ld').1 ↔
      p ∈ (explodeRay w h bx bY dx dy 1 fuel ld).1 := by
  rw [explodeRay_mem_iff, explodeRay_mem_iff]
  constructor
  · rintro ⟨r, h1, h2, h3, h4, h5, h6⟩
    refine ⟨r, h1, h2, h3, fun j hj1 hj2 => ?_, h5, ?_⟩
    · obtain ⟨hi, ht⟩ := h4 j hj1 hj2
      exact ⟨hi, by rwa [hag j hj1] at ht⟩
    · rwa [hag r h1] at h6
  · rintro ⟨r, h1, h2, h3, h4, h5, h6⟩
    refine ⟨r, h1, h2, h3, fun j hj1 hj2 => ?_, h5, ?_⟩
    · obtain ⟨hi, ht⟩ := h4 j hj1 hj2
      exact ⟨hi, by rwa [← hag j hj1] at ht⟩
    · rwa [← hag r h1] at h6

/-- The claim-side blast condition only depends on the tiles along its
own direction's line. -/
theorem blastClaimCond_agree (W H bx bY : Int) (R : Nat) (d : Int × Int)
    (ld ld' : LevelData)
    (hag : ∀ r : Int, 1 ≤ r →
      rayStepTile ld' bx bY d.1 d.2 r = rayStepTile ld bx bY d.1 d.2 r) (p : Int × Int) :
    blastClaimCond W H bx bY ld' R d p ↔ blastClaimCond W H bx bY ld R d p := by
  unfold blastClaimCond
  constructor
  · rintro ⟨r, h1, h2, h3, h4, h5, h6⟩
    refine ⟨r, h1, h2, h3, fun j hj1 hj2 => ?_, h5, ?_⟩
    · obtain ⟨hi, ht⟩ := h4 j hj1 hj2
      exact ⟨hi, by rwa [hag j hj1] at ht⟩
    · rwa [hag r h1] at h6
  · rintro ⟨r, h1, h2, h3, h4, h5, h6⟩
    refine ⟨r, h1, h2, h3, fun j hj1 hj2 => ?_, h5, ?_⟩
    · obtain ⟨hi, ht⟩ := h4 j hj1 hj2
      exact ⟨hi, by rwa [← hag j hj1] at ht⟩
    · rwa [← hag r h1] at h6

/-- The direction fold leaves every tile untouched that lies on none of
its rays' lines. -/
theorem explodeAllRays_snd_tile_at (W H bx bY : Int) (R : Nat) :
    ∀ (ds : List (Int × Int)) (ld : LevelData) (qx qy : Int),
      (∀ d ∈ ds, ∀ r : Int, 1 ≤ r → (qx, qy) ≠ rayPos bx bY d.1 d.2 r) →
      (explodeAllRays W H bx bY R ds ld).2.tile_at qx qy = ld.tile_at qx qy
  | [], _, _, _, _ => rfl
  | d :: ds, ld, qx, qy, hq => by
    simp only [explodeAllRays]
    rw [explodeAllRays_snd_tile_at W H bx bY R ds _ qx qy
      (fun d' hd' => hq d' (List.mem_cons_of_mem _ hd'))]
    exact explodeRay_snd_tile_at W H bx bY d.1 d.2 R 1 ld qx qy
      (fun r hr => hq d (List.mem_cons_self _ _) r hr)

/-- Membership in the direction fold, for pairwise-distinct directions
drawn from the four unit directions, characterized against the grid at
detonation time. -/
theorem explodeAllRays_mem_iff (W H bx bY : Int) (R : Nat) :
    ∀ (ds : List (Int × Int)) (ld : LevelData),
      (∀ d ∈ ds, d ∈ explosionDirections) → ds.Pairwise (fun a b => a ≠ b) →
      ∀ p : Int × Int, p ∈ (explodeAllRays W H bx bY R ds ld).1 ↔
        ∃ d ∈ ds, blastClaimCond W H bx bY ld R d p
  | [], ld, _, _, p => by simp [explodeAllRays]
  | d :: ds, ld, hsub, hpw, p => by
    have hd1 : d ∈ explosionDirections := hsub d (List.mem_cons_self _ _)
    have hpw' := List.pairwise_cons.mp hpw
    have hag : ∀ d' ∈ ds, ∀ r : Int, 1 ≤ r →
        rayStepTile (explodeRay W H bx bY d.1 d.2 1 R ld).2 bx bY d'.1 d'.2 r =
          rayStepTile ld bx bY d'.1 d'.2 r := by
      intro d' hd' r hr
      exact explodeRay_snd_tile_at W H bx bY d.1 d.2 R 1 ld _ _
        (fun s hs => rayLine_disjoint bx bY d' d (hsub d' (List.mem_cons_of_mem _ hd')) hd1
          (fun hc => hpw'.1 d' hd' hc.symm) r s hr hs)
    have hrest := explodeAllRays_mem_iff W H bx bY R ds
      (explodeRay W H bx bY d.1 d.2 1 R ld).2
      (fun d' hd' => hsub d' (List.mem_cons_of_mem _ hd')) hpw'.2 p
    simp only [explodeAllRays, List.mem_append]
    constructor
    · rintro (h1 | h2)
      · refine ⟨d, List.mem_cons_self _ _, ?_⟩
        have := (explodeRay_mem_iff W H bx bY d.1 d.2 R 1 ld p).mp h1
        exact this
      · obtain ⟨d', hd', hcond⟩ := hrest.mp h2
        exact ⟨d', List.mem_cons_of_mem _ hd',
          (blastClaimCond_agree W H bx bY R d' ld _ (hag d' hd') p).mp hcond⟩
    · rintro ⟨d', hd', hcond⟩
      rcases List.mem_cons.mp hd' with rfl | hd'
      · exact Or.inl ((explodeRay_mem_iff W H bx bY d'.1 d'.2 R 1 ld p).mpr hcond)
      · exact Or.inr (hrest.mpr ⟨d', hd',
          (blastClaimCond_agree W H bx bY R d' ld _ (hag d' hd') p).mpr hcond⟩)

/-- A breakable tile in the blast of the direction fold is `EMPTY` in
the final grid. -/
theorem explodeAllRays_breakable (W H bx bY : Int) (R : Nat) :
    ∀ (ds : List (Int × Int)) (ld : LevelData),
      (∀ d ∈ ds, d ∈ explosionDirections) → ds.Pairwise (fun a b => a ≠ b) →
      ∀ p : Int × Int, p ∈ (explodeAllRays W H bx bY R ds ld).1 →
        ld.tile_at p.1 p.2 = TileType.BREAKABLE →
        (explodeAllRays W H bx bY R ds ld).2.tile_at p.1 p.2 = TileType.EMPTY
  | [], _, _, _, p, hp, _ => absurd hp (List.not_mem_nil _)
  | d :: ds, ld, hsub, hpw, p, hp, hbr => by
    have hd1 : d ∈ explosionDirections := hsub d (List.mem_cons_self _ _)
    have hpw' := List.pairwise_cons.mp hpw
    simp only [explodeAllRays, List.mem_append] at hp
    simp only [explodeAllRays]
    rcases hp with h1 | h2
    · obtain ⟨r, hr1, _, hpp, _, _, _⟩ := (explodeRay_mem_iff W H bx bY d.1 d.2 R 1 ld p).mp h1
      rw [explodeAllRays_snd_tile_at W H bx bY R ds _ p.1 p.2 ?_]
      · exact explodeRay_breakable_to_empty W H bx bY d.1 d.2 R 1 ld p h1 hbr
      · intro d' hd' s hs
        subst hpp
        exact rayLine_disjoint bx bY d d' hd1 (hsub d' (List.mem_cons_of_mem _ hd'))
          (fun hc => hpw'.1 d' hd' hc) r s hr1 hs
    · obtain ⟨d', hd', hcond⟩ := explodeAllRays_mem_iff W H bx bY R ds _
        (fun x hx => hsub x (List.mem_cons_of_mem _ hx)) hpw'.2 p |>.mp h2
      obtain ⟨r, hr1, _, hpp, _, _, _⟩ := hcond
      have hagp : (explodeRay W H bx bY d.1 d.2 1 R ld).2.tile_at p.1 p.2 =
          ld.tile_at p.1 p.2 := by
        apply explodeRay_snd_tile_at W H bx bY d.1 d.2 R 1 ld
        intro s hs
        subst hpp
        exact rayLine_disjoint bx bY d' d (hsub d' (List.mem_cons_of_mem _ hd')) hd1
          (fun hc => hpw'.1 d' hd' hc.symm) r s hr1 hs
      exact explodeAllRays_breakable W H bx bY R ds _
        (fun x hx => hsub x (List.mem_cons_of_mem _ hx)) hpw'.2 p h2
        (by rw [hagp]; exact hbr)

/-- C6 (amended): the blast set always contains the bomb's own tile,
and a non-center tile is in the blast set iff it lies at some step
`r ≤ radius` of one of the four directions such that every earlier step
of that ray is in bounds and reads `EMPTY` or `EXIT` — Exit tiles are
*passed through without being included*, unlike the claim's wording —
and step `r` is in bounds and reads `EMPTY` or `BREAKABLE` (so rays
stop without inclusion at Indestructible/Hard and nothing beyond the
first blocking tile, and a Breakable is the last tile of its ray);
every non-center Breakable tile of the blast set is converted to
`EMPTY` in the room's grid. -/
theorem c6_blast_characterization (room : GameRoom) (bomb : Bomb) (ld : LevelData)
    (hld : room.level_data = some ld) :
    ((bomb.x, bomb.y) ∈ (handle_bomb_explosion room bomb).2.explosion_tiles) ∧
    (∀ p : Int × Int, p ∈ (handle_bomb_explosion room bomb).2.explosion_tiles ↔
      (p = (bomb.x, bomb.y) ∨ ∃ d ∈ explosionDirections,
        blastClaimCond room.level_width room.level_height bomb.x bomb.y ld
          (bombRadius room bomb).toNat d p)) ∧
    (∀ p : Int × Int, p ∈ (handle_bomb_explosion room bomb).2.explosion_tiles →
      p ≠ (bomb.x, bomb.y) → ld.tile_at p.1 p.2 = TileType.BREAKABLE →
      ((handle_bomb_explosion room bomb).1.level_data.getD default).tile_at p.1 p.2 =
        TileType.EMPTY) := by
  have htiles : (handle_bomb_explosion room bomb).2.explosion_tiles =
      (explodeAllRays room.level_width room.level_height bomb.x bomb.y
        (bombRadius room bomb).toNat explosionDirections ld).1 ++ [(bomb.x, bomb.y)] := by
    unfold handle_bomb_explosion
    rw [hld]
  have hld4 : (handle_bomb_explosion room bomb).1.level_data =
      some (explodeAllRays room.level_width room.level_height bomb.x bomb.y
        (bombRadius room bomb).toNat explosionDirections ld).2 := by
    unfold handle_bomb_explosion
    rw [hld]
  have hsub : ∀ d ∈ explosionDirections, d ∈ explosionDirections := fun d hd => hd
  have hpw : explosionDirections.Pairwise (fun a b => a ≠ b) := by decide
  refine ⟨?_, ?_, ?_⟩
  · rw [htiles]
    simp
  · intro p
    rw [htiles]
    simp only [List.mem_append, List.mem_singleton]
    rw [explodeAllRays_mem_iff room.level_width room.level_height bomb.x bomb.y
      (bombRadius room bomb).toNat explosionDirections ld hsub hpw p]
    exact or_comm
  · intro p hp hne hbr
    rw [htiles] at hp
    rcases List.mem_append.mp hp with hp | hp
    · rw [hld4]
      exact explodeAllRays_breakable room.level_width room.level_height bomb.x bomb.y
        (bombRadius room bomb).toNat explosionDirections ld hsub hpw p hp hbr
    · exact absurd (List.mem_singleton.mp hp) hne

/-- C6 witness: the characterization instantiated at the concrete
scenario room — the bomb's own tile is in the blast set. -/
theorem c6_witness :
    (c6Bomb.x, c6Bomb.y) ∈ (handle_bomb_explosion c6Room c6Bomb).2.explosion_tiles :=
  (c6_blast_characterization c6Room c6Bomb c6Level rfl).1

/-- C7 counterexample: the level source yields a grid with no Exit
tile, yet `start_game` succeeds — it returns a `game_started` event and
sets the room's `started` flag — instead of failing as the claim
requires. -/
theorem c7_counterexample :
    (∀ x y : Int, c7Level.tile_at x y ≠ TileType.EXIT) ∧
    (start_game c7Db (fun _ => none) id c7Room).1.isSome = true ∧
    (start_game c7Db (fun _ => none) id c7Room).2.started = true := by
  refine ⟨?_, by decide, by decide⟩
  intro x y
  unfold c7Level LevelData.tile_at
  dsimp only
  split
  · decide
  · exact (by decide : TileType.EMPTY ≠ TileType.EXIT)

/-- `spawn_enemies` never touches the started flag. -/
theorem spawn_enemies_started (defdb : String → Option LevelDefn)
    (shuf : List (Int × Int) → List (Int × Int)) (room : GameRoom) :
    (spawn_enemies defdb shuf room).started = room.started := by
  unfold spawn_enemies
  split
  · rfl
  · dsimp only
    split <;> rfl

/-- `position_players` never touches the started flag. -/
theorem position_players_started (room : GameRoom) :
    (position_players room).started = room.started := by
  unfold position_players
  split
  · rfl
  · split
    · rfl
    · dsimp only
      split <;> rfl

/-- C7 (amended): a start attempt fails — no event, the room returned
unchanged with `started` still false — exactly when the room is not
full or the level source returns no grid at all for the room's level
id; no Exit-tile validation exists: whenever the source yields a grid,
even one containing no Exit tile, the start succeeds, the started flag
is set and a `game_started` event is returned. -/
theorem c7_start_failure_modes :
    (∀ (db : String → Option LevelData) (defdb : String → Option LevelDefn)
      (shuf : List (Int × Int) → List (Int × Int)) (room : GameRoom),
      room.is_full = false → start_game db defdb shuf room = (none, room)) ∧
    (∀ (db : String → Option LevelData) (defdb : String → Option LevelDefn)
      (shuf : List (Int × Int) → List (Int × Int)) (room : GameRoom),
      db room.level_id = none → start_game db defdb shuf room = (none, room)) ∧
    (∀ (db : String → Option LevelData) (defdb : String → Option LevelDefn)
      (shuf : List (Int × Int) → List (Int × Int)) (room : GameRoom) (ld : LevelData),
      room.is_full = true → db room.level_id = some ld →
      (start_game db defdb shuf room).1.isSome = true ∧
      (start_game db defdb shuf room).2.started = true) := by
  refine ⟨?_, ?_, ?_⟩
  · intro db defdb shuf room hfull
    unfold start_game
    rw [if_pos (by simp [hfull])]
  · intro db defdb shuf room hdb
    unfold start_game
    by_cases hfull : room.is_full
    · rw [if_neg (by simp [hfull])]
      unfold load_level
      rw [hdb]
      rfl
    · rw [if_pos (by simp [hfull])]
  · intro db defdb shuf room ld hfull hdb
    unfold start_game
    rw [if_neg (by simp [hfull])]
    unfold load_level
    rw [hdb]
    dsimp only
    rw [if_neg (by simp)]
    constructor
    · rfl
    · rw [position_players_started, spawn_enemies_started]

/-- C7 witness: the amended failure/success modes at concrete inputs —
an empty level source fails the start, the exit-free grid starts it. -/
theorem c7_witness :
    start_game (fun _ => none) (fun _ => none) id c7Room = (none, c7Room) ∧
    (start_game c7Db (fun _ => none) id c7Room).2.started = true :=
  ⟨c7_start_failure_modes.2.1 (fun _ => none) (fun _ => none) id c7Room rfl,
    (c7_start_failure_modes.2.2 c7Db (fun _ => none) id c7Room c7Level rfl rfl).2⟩

/-- C2 counterexample: `get_level` returns the cached object both
times (heap reference 0), but a bomb explosion in a room between the
two invocations converts the shared grid's breakable wall at `(2, 1)`
to `EMPTY`, so the two invocations do not yield identical tile types:
the first grid has `BREAKABLE` at `(2, 1)`, the second `EMPTY`. -/
theorem c2_counterexample :
    (get_level c2Db {} "level_1").1 = some 0 ∧
    (get_level c2Db (explodeOnSharedLevel ((get_level c2Db {} "level_1").2) 0
      c2Room c2Bomb).1 "level_1").1 = some 0 ∧
    (readLevelRef (get_level c2Db {} "level_1").2 0).tile_at 2 1 = TileType.BREAKABLE ∧
    (readLevelRef (get_level c2Db (explodeOnSharedLevel ((get_level c2Db {} "level_1").2) 0
      c2Room c2Bomb).1 "level_1").2 0).tile_at 2 1 = TileType.EMPTY := by
  decide

/-- C2 (amended): with no intervening mutation `get_level` is
deterministic — calling it again in the state left by a previous call
returns the same cached reference and leaves the cache untouched — but
the returned grid is the shared mutable object, so it is not a pure
function of the level id once a room mutates it (counterexample). -/
theorem c2_get_level_idempotent (db : String → Option LevelData) (s : LevelCacheState)
    (lid : String) :
    get_level db ((get_level db s lid).2) lid =
      ((get_level db s lid).1, (get_level db s lid).2) := by
  unfold get_level
  cases hf : s.cache.find? (fun e => e.1 = lid) with
  | some e =>
    dsimp only
    rw [hf]
  | none =>
    dsimp only
    cases hdb : db lid with
    | none =>
      dsimp only
      rw [hf]
    | some ld =>
      dsimp only
      have happ : ((s.cache ++ [(lid, s.heap.length)]).find? (fun e => e.1 = lid)) =
          some (lid, s.heap.length) := by
        rw [List.find?_append, hf]
        simp [List.find?]
      rw [happ]

/-- C4 counterexample: with the persistence collaborator failing,
`handle_create_room` returns an error to the requester and registers no
in-memory room, and `handle_join_room` likewise returns an error and
leaves the in-memory cache untouched — the claim says such failures are
only logged and never block the in-memory transition. -/
theorem c4_counterexample :
    (handle_create_room c4RepoFail {} "s9" "carol" "rid" "pid" ["ABCDEF"]).1 =
      HandlerResponse.error "Oda olusturulamadi" ∧
    (handle_create_room c4RepoFail {} "s9" "carol" "rid" "pid" ["ABCDEF"]).2.rooms = [] ∧
    (handle_join_room c4RepoFail {} "s9" "carol" "AAAAAH" "pid").1 =
      HandlerResponse.error "Odaya katilamadi" ∧
    (handle_join_room c4RepoFail {} "s9" "carol" "AAAAAH" "pid").2.rooms = [] := by
  decide

/-- C4 (amended): only the auxiliary `list_active_rooms` check is
fire-and-forget — an exception there is swallowed and creation still
completes when the write succeeds — but a reported failure of the
persistence writes *is* surfaced: `create_room` failing aborts room
creation with an error and no in-memory registration, and
`add_player_to_room` failing aborts the join with an error and no
in-memory cache update. -/
theorem c4_persistence_failure_surfaced :
    (∀ (repo : RepoBehavior) (st : ServerState) (sid username rid pid code : String)
      (codes : List String),
      find_player_room_by_socket st sid = none →
      socketInActiveRooms repo sid = false →
      codes.find? (fun c => ¬ repo.room_code_exists c) = some code →
      repo.create_room = false →
      handle_create_room repo st sid username rid pid codes =
        (.error "Oda olusturulamadi", st)) ∧
    (∀ (repo : RepoBehavior) (st : ServerState) (sid username room_code pid : String)
      (room : GameRoom),
      find_player_room_by_socket st sid = none →
      repo.get_room_by_code room_code.trim.toUpper = some room →
      room.is_full = false → room.started = false →
      repo.add_player_to_room = false →
      handle_join_room repo st sid username room_code pid =
        (.error "Odaya katilamadi", st)) ∧
    (∀ (repo : RepoBehavior) (st : ServerState) (sid username rid pid code : String)
      (codes : List String),
      find_player_room_by_socket st sid = none →
      repo.list_active_rooms = none →
      codes.find? (fun c => ¬ repo.room_code_exists c) = some code →
      repo.create_room = true →
      (handle_create_room repo st sid username rid pid codes).1 =
        .room_created code rid pid 1) := by
  refine ⟨?_, ?_, ?_⟩
  · intro repo st sid username rid pid code codes hsock hdb hcode hfail
    unfold handle_create_room
    rw [hsock]
    dsimp only [Option.isSome_none]
    rw [if_neg (by simp), if_neg (by simp [hdb]), hcode]
    dsimp only
    rw [if_pos (by simp [hfail])]
  · intro repo st sid username room_code pid room hsock hget hfull hstarted hfail
    unfold handle_join_room
    rw [hsock]
    dsimp only [Option.isSome_none]
    rw [if_neg (by simp), hget]
    dsimp only
    rw [if_neg (by simp [hfull]), if_neg (by simp [hstarted]),
      if_pos (by simp [hfail])]
  · intro repo st sid username rid pid code codes hsock hdb hcode hok
    unfold handle_create_room
    rw [hsock]
    dsimp only [Option.isSome_none]
    rw [if_neg (by simp), if_neg (by simp [socketInActiveRooms, hdb]), hcode]
    dsimp only
    rw [if_neg (by simp [hok])]

/-- C4 witness: the three amended branches at concrete inputs. -/
theorem c4_witness :
    handle_create_room c4RepoFail {} "s8" "dave" "rid8" "pid8" ["QQQQQQ"] =
      (.error "Oda olusturulamadi", {}) ∧
    handle_join_room c4RepoFail {} "s8" "dave" "AAAAAH" "pid8" =
      (.error "Odaya katilamadi", {}) ∧
    (handle_create_room { c4RepoFail with list_active_rooms := none, create_room := true }
      {} "s8" "dave" "rid8" "pid8" ["QQQQQQ"]).1 =
      .room_created "QQQQQQ" "rid8" "pid8" 1 :=
  ⟨c4_persistence_failure_surfaced.1 c4RepoFail {} "s8" "dave" "rid8" "pid8" "QQQQQQ"
      ["QQQQQQ"] rfl rfl rfl rfl,
    c4_persistence_failure_surfaced.2.1 c4RepoFail {} "s8" "dave" "AAAAAH" "pid8"
      c4DbRoom rfl rfl rfl rfl rfl,
    c4_persistence_failure_surfaced.2.2
      { c4RepoFail with list_active_rooms := none, create_room := true }
      {} "s8" "dave" "rid8" "pid8" "QQQQQQ" ["QQQQQQ"] rfl rfl rfl rfl⟩

/-! ### C8: room capacity -/
/-- C8: rooms hold at most two players — `add_player` refuses exactly
when the room is already full, so the two-player bound is preserved by
every roster addition — and a join against a full or already-started
room returns an error and leaves the in-memory state (and the fetched
roster) unchanged. -/
theorem c8_capacity_invariant :
    (∀ (room : GameRoom) (p : Player),
      (room.players.length ≤ 2 → (room.add_player p).2.players.length ≤ 2) ∧
      (room.is_full = true → room.add_player p = (false, room))) ∧
    (∀ (repo : RepoBehavior) (st : ServerState) (sid username room_code pid : String)
      (room : GameRoom),
      repo.get_room_by_code room_code.trim.toUpper = some room →
      room.is_full = true ∨ room.started = true →
      (handle_join_room repo st sid username room_code pid).1.isError = true ∧
      (handle_join_room repo st sid username room_code pid).2 = st) := by
  constructor
  · intro room p
    constructor
    · intro hle
      unfold GameRoom.add_player GameRoom.is_full
      by_cases hfull : room.players.length ≥ 2
      · rw [if_pos (by simpa using hfull)]
        exact hle
      · rw [if_neg (by simpa using hfull)]
        simp only [List.length_append, List.length_singleton]
        omega
    · intro hfull
      unfold GameRoom.add_player
      rw [if_pos (by simpa using hfull)]
  · intro repo st sid username room_code pid room hget hbad
    unfold handle_join_room
    by_cases hsock : (find_player_room_by_socket st sid).isSome
    · rw [if_pos hsock]
      exact ⟨rfl, rfl⟩
    · rw [if_neg hsock, hget]
      dsimp only
      by_cases hfull : room.is_full
      · rw [if_pos (by simpa using hfull)]
        exact ⟨rfl, rfl⟩
      · have hstarted : room.started = true := by
          rcases hbad with hb | hb
          · exact absurd hb (by simpa using hfull)
          · exact hb
        rw [if_neg (by simpa using hfull), if_pos (by simp [hstarted])]
        exact ⟨rfl, rfl⟩

/-- C8 witness: a join against a full room errors and leaves the state
unchanged, and `add_player` preserves the bound at a concrete room. -/
theorem c8_witness :
    ((GameRoom.add_player c8FullRoom c7P1).2.players.length ≤ 2) ∧
    (handle_join_room c8Repo {} "s7" "erin" "AAAAAH" "pid7").1.isError = true :=
  ⟨(c8_capacity_invariant.1 c8FullRoom c7P1).1 (by decide),
    (c8_capacity_invariant.2 c8Repo {} "s7" "erin" "AAAAAH" "pid7" c8FullRoom
      rfl (Or.inl (by decide))).1⟩

/-! ### C9: level advancement -/
/-- `spawn_enemies` only rebuilds the enemy list. -/
theorem spawn_enemies_preserves (defdb : String → Option LevelDefn)
    (shuf : List (Int × Int) → List (Int × Int)) (room : GameRoom) :
    (spawn_enemies defdb shuf room).players = room.players ∧
    (spawn_enemies defdb shuf room).bombs = room.bombs ∧
    (spawn_enemies defdb shuf room).level_id = room.level_id ∧
    (spawn_enemies defdb shuf room).level_data = room.level_data := by
  unfold spawn_enemies
  split
  · exact ⟨rfl, rfl, rfl, rfl⟩
  · dsimp only
    split <;> exact ⟨rfl, rfl, rfl, rfl⟩

/-- `position_players` only rewrites player positions. -/
theorem position_players_preserves (room : GameRoom) :
    (position_players room).enemies = room.enemies ∧
    (position_players room).bombs = room.bombs ∧
    (position_players room).level_id = room.level_id := by
  unfold position_players
  split
  · exact ⟨rfl, rfl, rfl⟩
  · split
    · exact ⟨rfl, rfl, rfl⟩
    · dsimp only
      split <;> exact ⟨rfl, rfl, rfl⟩

/-- Any per-player observation insensitive to the position survives
`position_players`. -/
theorem position_players_players_map {α : Type} (f : Player → α)
    (hf : ∀ (p : Player) (q : Int × Int), f { p with position := q } = f p)
    (room : GameRoom) :
    (position_players room).players.map f = room.players.map f := by
  unfold position_players
  split
  · rfl
  · split
    · rfl
    · dsimp only
      split <;> simp [hf, *]

/-- Enemies produced by the inner spawn loop. -/
theorem spawnGroup_mem (ld : LevelData) (ety : String) :
    ∀ (n : Nat) (ps : List (Int × Int)) (ctr : Nat) (e : Enemy),
      e ∈ (spawnGroup ld ety n ps ctr).1 →
      e.health = 100 ∧ e.alive = true ∧ e.spawn_position = e.position ∧
        e.enemy_type = ety
  | 0, _, _, _, h => absurd h (List.not_mem_nil _)
  | n + 1, ps, ctr, e, h => by
    match ps with
    | [] => exact absurd h (List.not_mem_nil _)
    | pos :: rest =>
      rw [spawnGroup] at h
      by_cases hc : ld.can_move_to pos.1 pos.2
      · rw [if_pos hc] at h
        rcases List.mem_cons.mp h with rfl | h'
        · exact ⟨rfl, rfl, rfl, rfl⟩
        · exact spawnGroup_mem ld ety n rest (ctr + 1) e h'
      · rw [if_neg hc] at h
        exact spawnGroup_mem ld ety n rest ctr e h

/-- Enemies produced by the outer spawn loop. -/
theorem spawnAll_mem (ld : LevelData) :
    ∀ (sps : List EnemySpawnDef) (ps : List (Int × Int)) (ctr : Nat) (e : Enemy),
      e ∈ spawnAll ld sps ps ctr →
      e.health = 100 ∧ e.alive = true ∧ e.spawn_position = e.position ∧
        ∃ sp ∈ sps, e.enemy_type = sp.ty.toLower
  | [], _, _, _, h => absurd h (List.not_mem_nil _)
  | sp :: rest, ps, ctr, e, h => by
    rw [spawnAll] at h
    rcases List.mem_append.mp h with h' | h'
    · obtain ⟨h1, h2, h3, h4⟩ := spawnGroup_mem ld sp.ty.toLower sp.count ps ctr e h'
      exact ⟨h1, h2, h3, sp, List.mem_cons_self _ _, h4⟩
    · obtain ⟨h1, h2, h3, sp', hsp', h4⟩ := spawnAll_mem ld rest _ _ e h'
      exact ⟨h1, h2, h3, sp', List.mem_cons_of_mem _ hsp', h4⟩

/-- Every enemy in a room after `spawn_enemies` is freshly spawned,
with its type drawn from the level definition's spawn list. -/
theorem spawn_enemies_mem (defdb : String → Option LevelDefn)
    (shuf : List (Int × Int) → List (Int × Int)) (room : GameRoom) (ld : LevelData)
    (hld : room.level_data = some ld) :
    ∀ e ∈ (spawn_enemies defdb shuf room).enemies,
      e.health = 100 ∧ e.alive = true ∧ e.spawn_position = e.position ∧
        ∃ d, defdb room.level_id = some d ∧ ∃ sp ∈ d.enemy_spawns,
          e.enemy_type = sp.ty.toLower := by
  intro e he
  unfold spawn_enemies at he
  rw [hld] at he
  dsimp only at he
  cases hd : defdb room.level_id with
  | none =>
    rw [hd] at he
    exact absurd he (List.not_mem_nil _)
  | some d =>
    rw [hd] at he
    dsimp only at he
    obtain ⟨h1, h2, h3, sp, hsp, h4⟩ := spawnAll_mem ld d.enemy_spawns _ 0 e he
    exact ⟨h1, h2, h3, d, rfl, sp, hsp, h4⟩

/-- Unfolding `advance_to_next_level` on a successful advance. -/
theorem advance_to_next_level_eq (db : String → Option LevelData)
    (defdb : String → Option LevelDefn) (shuf : List (Int × Int) → List (Int × Int))
    (room : GameRoom) (nid : String) (ld : LevelData)
    (hnext : get_next_level_id room.level_id = some nid) (hdb : db nid = some ld) :
    advance_to_next_level db defdb shuf room =
      (true, position_players (spawn_enemies defdb shuf
        { room with
          level_id := nid, level_width := ld.width, level_height := ld.height,
          level_data := some ld,
          original_breakable_walls :=
            (ld.tiles.filter (fun e => e.2 = TileType.BREAKABLE)).map (fun e => e.1),
          players := room.players.map
            (fun p => { p with reached_exit := false, health := 100 }),
          bombs := [] })) := by
  unfold advance_to_next_level load_level
  rw [hnext]
  dsimp only
  rw [hdb]
  dsimp only
  rw [if_neg (by simp)]

/-- C9: when a started room has at least one living player and every
living player has reached the exit, the completion check fires; the
advance step bumps the level id by one (cap: from `level_10` no advance
occurs), clears the bomb list, re-spawns the enemies from the new
level's spawn definitions, and leaves every player revived (health 100,
`reached_exit` cleared) with a newly assigned start position (player 1
is placed on `(1, 1)` whenever it is traversable). -/
theorem c9_level_advance :
    (∀ room : GameRoom,
      check_level_completion room = true ↔
        (room.started = true ∧ (∃ p ∈ room.players, p.health > 0) ∧
          ∀ p ∈ room.players, p.health > 0 → p.reached_exit = true)) ∧
    (get_next_level_id "level_10" = none ∧
      ∀ n : Nat, 1 ≤ n → n ≤ 9 →
        get_next_level_id ("level_" ++ toString n) = some ("level_" ++ toString (n + 1))) ∧
    (∀ (db : String → Option LevelData) (defdb : String → Option LevelDefn)
      (shuf : List (Int × Int) → List (Int × Int)) (room : GameRoom),
      get_next_level_id room.level_id = none →
      advance_to_next_level db defdb shuf room = (false, room)) ∧
    (∀ (db : String → Option LevelData) (defdb : String → Option LevelDefn)
      (shuf : List (Int × Int) → List (Int × Int)) (room : GameRoom)
      (nid : String) (ld : LevelData),
      get_next_level_id room.level_id = some nid → db nid = some ld →
      (advance_to_next_level db defdb shuf room).1 = true ∧
      (advance_to_next_level db defdb shuf room).2.level_id = nid ∧
      (advance_to_next_level db defdb shuf room).2.bombs = [] ∧
      (∀ p ∈ (advance_to_next_level db defdb shuf room).2.players,
        p.health = 100 ∧ p.reached_exit = false) ∧
      (∀ e ∈ (advance_to_next_level db defdb shuf room).2.enemies,
        e.health = 100 ∧ e.alive = true ∧ e.spawn_position = e.position ∧
          ∃ d, defdb nid = some d ∧ ∃ sp ∈ d.enemy_spawns,
            e.enemy_type = sp.ty.toLower) ∧
      (ld.can_move_to 1 1 = true → room.players ≠ [] →
        ((advance_to_next_level db defdb shuf room).2.players.head?).map Player.position =
          some (1, 1))) := by
  refine ⟨?_, ⟨by decide, ?_⟩, ?_, ?_⟩
  · intro room
    unfold check_level_completion
    by_cases hs : room.started = true
    · rw [if_neg (by simp [hs])]
      dsimp only
      by_cases hz : (room.players.filter (fun p => p.health > 0)).length = 0
      · rw [if_pos hz]
        rw [List.length_eq_zero, List.filter_eq_nil_iff] at hz
        constructor
        · intro hfalse
          exact absurd hfalse (by simp)
        · rintro ⟨_, ⟨p, hp, hh⟩, _⟩
          exact absurd (by simpa using hh : decide (p.health > 0) = true)
            (by simpa using hz p hp)
      · rw [if_neg hz]
        rw [List.all_eq_true]
        constructor
        · intro h
          refine ⟨hs, ?_, ?_⟩
          · have hne : room.players.filter (fun p => p.health > 0) ≠ [] :=
              fun hc => hz (by simp [hc])
            obtain ⟨p, hp⟩ := List.exists_mem_of_ne_nil _ hne
            obtain ⟨hp1, hp2⟩ := List.mem_filter.mp hp
            exact ⟨p, hp1, by simpa using hp2⟩
          · intro p hp hh
            simpa using h p (List.mem_filter.mpr ⟨hp, by simpa using hh⟩)
        · rintro ⟨_, _, hall⟩ p hp
          obtain ⟨hp1, hp2⟩ := List.mem_filter.mp hp
          simpa using hall p hp1 (by simpa using hp2)
    · rw [if_pos (by simp [hs])]
      simp only [Bool.false_eq_true, false_iff, not_and]
      intro hstarted
      exact absurd hstarted hs
  · intro n h1 h2
    interval_cases n <;> decide
  · intro db defdb shuf room hnone
    unfold advance_to_next_level
    rw [hnone]
  · intro db defdb shuf room nid ld hnext hdb
    rw [advance_to_next_level_eq db defdb shuf room nid ld hnext hdb]
    set RR : GameRoom :=
      { room with
        level_id := nid, level_width := ld.width, level_height := ld.height,
        level_data := some ld,
        original_breakable_walls :=
          (ld.tiles.filter (fun e => e.2 = TileType.BREAKABLE)).map (fun e => e.1),
        players := room.players.map
          (fun p => { p with reached_exit := false, health := 100 }),
        bombs := [] } with hRR
    have hsp := (spawn_enemies_preserves defdb shuf RR).1
    have hsb := (spawn_enemies_preserves defdb shuf RR).2.1
    have hsl := (spawn_enemies_preserves defdb shuf RR).2.2.1
    have hsd := (spawn_enemies_preserves defdb shuf RR).2.2.2
    refine ⟨rfl, ?_, ?_, ?_, ?_, ?_⟩
    · rw [(position_players_preserves _).2.2, hsl]
    · rw [(position_players_preserves _).2.1, hsb]
    · intro p hp
      have hin := List.mem_map_of_mem (fun p => (p.health, p.reached_exit)) hp
      rw [position_players_players_map (fun p => (p.health, p.reached_exit))
        (fun _ _ => rfl), hsp] at hin
      have hRRp : RR.players = room.players.map
          (fun p => { p with reached_exit := false, health := 100 }) := rfl
      rw [hRRp, List.map_map] at hin
      obtain ⟨q, _, heq⟩ := List.mem_map.mp hin
      have h1 : p.health = 100 := by
        have := congrArg Prod.fst heq
        simpa using this.symm
      have h2 : p.reached_exit = false := by
        have := congrArg Prod.snd heq
        simpa using this.symm
      exact ⟨h1, h2⟩
    · intro e he
      rw [(position_players_preserves _).1] at he
      obtain ⟨h1, h2, h3, d, hd, sp, hsp2, h4⟩ :=
        spawn_enemies_mem defdb shuf RR ld rfl e he
      exact ⟨h1, h2, h3, d, hd, sp, hsp2, h4⟩
    · intro hcan hne
      unfold position_players
      rw [hsd]
      dsimp only
      cases hq : (spawn_enemies defdb shuf RR).players with
      | nil =>
        rw [hq] at hsp
        have : room.players.map
            (fun p => { p with reached_exit := false, health := 100 }) = [] := by
          have hRRp : RR.players = room.players.map
              (fun p => { p with reached_exit := false, health := 100 }) := rfl
          rw [← hRRp]
          exact hsp.symm
        exact absurd (List.map_eq_nil_iff.mp this) hne
      | cons p0 rest =>
        rw [if_pos hcan]
        cases rest <;> rfl

/-- C9 witness: concrete instantiation — completion fires and the
advance bumps the level id and clears bombs. -/
theorem c9_witness :
    check_level_completion c9Room = true ∧
    (advance_to_next_level c9Db (fun _ => none) id c9Room).1 = true ∧
    (advance_to_next_level c9Db (fun _ => none) id c9Room).2.level_id = "level_2" ∧
    (advance_to_next_level c9Db (fun _ => none) id c9Room).2.bombs = [] :=
  ⟨(c9_level_advance.1 c9Room).mpr (by decide),
    (c9_level_advance.2.2.2 c9Db (fun _ => none) id c9Room "level_2" c9Level2
      (by decide) rfl).1,
    (c9_level_advance.2.2.2 c9Db (fun _ => none) id c9Room "level_2" c9Level2
      (by decide) rfl).2.1,
    (c9_level_advance.2.2.2 c9Db (fun _ => none) id c9Room "level_2" c9Level2
      (by decide) rfl).2.2.1⟩

/-! ### C10: dead players can still act -/
/-- Finding the first player with an id after updating that player,
for id-preserving updates. -/
theorem updateFirstPlayer_find? (f : Player → Player) (pid : String)
    (hf : ∀ p, (f p).player_id = p.player_id) :
    ∀ l : List Player, (updateFirstPlayer f pid l).find? (fun p => p.player_id = pid) =
      (l.find? (fun p => p.player_id = pid)).map f
  | [] => rfl
  | p :: ps => by
    by_cases hp : p.player_id = pid
    · rw [updateFirstPlayer, if_pos hp,
        List.find?_cons_of_pos _ (by simp [hf, hp]),
        List.find?_cons_of_pos _ (by simp [hp])]
      rfl
    · rw [updateFirstPlayer, if_neg hp,
        List.find?_cons_of_neg _ (by simp [hf, hp]),
        List.find?_cons_of_neg _ (by simp [hp])]
      exact updateFirstPlayer_find? f pid hf ps

/-- Two id-preserving first-player updates commute when they commute
pointwise. -/
theorem updateFirstPlayer_comm (f g : Player → Player) (pid : String)
    (hfid : ∀ p, (f p).player_id = p.player_id)
    (hgid : ∀ p, (g p).player_id = p.player_id)
    (hc : ∀ p, f (g p) = g (f p)) :
    ∀ l : List Player, updateFirstPlayer f pid (updateFirstPlayer g pid l) =
      updateFirstPlayer g pid (updateFirstPlayer f pid l)
  | [] => rfl
  | p :: ps => by
    by_cases hp : p.player_id = pid
    · rw [show updateFirstPlayer g pid (p :: ps) = g p :: ps from by
          rw [updateFirstPlayer, if_pos hp],
        show updateFirstPlayer f pid (p :: ps) = f p :: ps from by
          rw [updateFirstPlayer, if_pos hp],
        updateFirstPlayer, if_pos (show (g p).player_id = pid from by rw [hgid p]; exact hp),
        updateFirstPlayer, if_pos (show (f p).player_id = pid from by rw [hfid p]; exact hp),
        hc p]
    · rw [show updateFirstPlayer g pid (p :: ps) = p :: updateFirstPlayer g pid ps from by
          rw [updateFirstPlayer, if_neg hp],
        show updateFirstPlayer f pid (p :: ps) = p :: updateFirstPlayer f pid ps from by
          rw [updateFirstPlayer, if_neg hp],
        updateFirstPlayer, if_neg hp, updateFirstPlayer, if_neg hp,
        updateFirstPlayer_comm f g pid hfid hgid hc ps]

/-- A per-player predicate whose value is unchanged on the updated
entry sees no difference after the update. -/
theorem updateFirstPlayer_any (f : Player → Player) (pid : String)
    (q : Player → Bool) (hq : ∀ p, p.player_id = pid → q (f p) = q p) :
    ∀ l : List Player, (updateFirstPlayer f pid l).any q = l.any q
  | [] => rfl
  | p :: ps => by
    by_cases hp : p.player_id = pid
    · rw [updateFirstPlayer, if_pos hp, List.any_cons, List.any_cons, hq p hp]
    · rw [updateFirstPlayer, if_neg hp, List.any_cons, List.any_cons,
        updateFirstPlayer_any f pid q hq ps]

/-- The movement permission does not read the acting player's health:
replacing it (both in the roster and on the actor) leaves the
decision and its reason unchanged. -/
theorem can_player_move_to_health (room : GameRoom) (pid : String) (h h' : Int)
    (player : Player) (hpid : player.player_id = pid) (nx ny : Int) :
    can_player_move_to (setPlayerHealth room pid h) { player with health := h' } nx ny =
      can_player_move_to room player nx ny := by
  unfold can_player_move_to setPlayerHealth
  dsimp only
  cases room.level_data with
  | none => rfl
  | some ld =>
    dsimp only
    rw [updateFirstPlayer_any (fun p => { p with health := h }) pid _
      (fun p hp => by simp [hpid, hp])]

/-- `markReachedExit` always leaves the flag set. -/
theorem markReachedExit_reached (p : Player) : (markReachedExit p).reached_exit = true := by
  unfold markReachedExit
  by_cases hre : p.reached_exit
  · rw [if_neg (by simpa using hre)]
    exact hre
  · rw [if_pos (by simpa using hre)]

/-- `markReachedExit` does not change the player id. -/
theorem markReachedExit_id (p : Player) : (markReachedExit p).player_id = p.player_id := by
  unfold markReachedExit
  split <;> rfl

/-- `markReachedExit` commutes with overriding the health field. -/
theorem markReachedExit_health (h : Int) (p : Player) :
    markReachedExit { p with health := h } = { markReachedExit p with health := h } := by
  unfold markReachedExit
  by_cases hre : p.reached_exit <;> simp [hre]

/-- Looking up a player in a room after `setPlayerHealth` on that id. -/
theorem get_player_setPlayerHealth (room : GameRoom) (pid : String) (h : Int) :
    (setPlayerHealth room pid h).get_player pid =
      (room.get_player pid).map (fun p => { p with health := h }) := by
  unfold GameRoom.get_player setPlayerHealth
  dsimp only
  exact updateFirstPlayer_find? (fun p => { p with health := h }) pid (fun _ => rfl)
    room.players

/-- C10: a player whose health is 0 can still act.  (1) Movement never
reads the acting player's health: overriding that health (to 0 or
anything else) changes neither the returned position nor anything in
the resulting room besides that same health field.  (2) A successful
move onto an Exit tile always leaves the mover's `reached_exit` flag
set — in particular a dead player can claim the exit.  (3) Bomb
placement likewise never reads the acting player's health, and (4) it
succeeds exactly when no unexploded bomb occupies the player's tile —
the tile-occupancy check is the only gate. -/
theorem c10_dead_player_can_act :
    (∀ (room : GameRoom) (pid direction : String) (h : Int),
      (move_player (setPlayerHealth room pid h) pid direction).1 =
          (move_player room pid direction).1 ∧
      (move_player (setPlayerHealth room pid h) pid direction).2 =
          setPlayerHealth (move_player room pid direction).2 pid h) ∧
    (∀ (room : GameRoom) (pid direction : String) (np : Int × Int) (ld : LevelData),
      room.level_data = some ld →
      (move_player room pid direction).1 = some np →
      ld.tile_at np.1 np.2 = TileType.EXIT →
      ((move_player room pid direction).2.get_player pid).map Player.reached_exit =
        some true) ∧
    (∀ (room : GameRoom) (pid : String) (h : Int),
      (place_bomb_of_id (setPlayerHealth room pid h) pid).1 =
          (place_bomb_of_id room pid).1 ∧
      (place_bomb_of_id (setPlayerHealth room pid h) pid).2 =
          setPlayerHealth (place_bomb_of_id room pid).2 pid h) ∧
    (∀ (room : GameRoom) (pid : String) (p : Player),
      room.get_player pid = some p →
      ((place_bomb_of_id room pid).1.isSome ↔
        ¬ room.bombs.any (fun b =>
          b.x = p.position.1 ∧ b.y = p.position.2 ∧ ¬ b.exploded))) := by
  refine ⟨?move_inv, ?exit_flag, ?place_inv, ?place_iff⟩
  case move_inv =>
    intro room pid direction h
    unfold move_player
    rw [get_player_setPlayerHealth]
    cases hg : room.get_player pid with
    | none => exact ⟨rfl, rfl⟩
    | some player =>
      have hpid : player.player_id = pid := by
        have h2 : room.players.find? (fun p => p.player_id = pid) = some player := by
          simpa [GameRoom.get_player] using hg
        have h3 := List.find?_some h2
        exact of_decide_eq_true h3
      simp only [Option.map_some']
      cases hnpo : (if direction = "up" then
            some (player.position.1, player.position.2 - 1)
          else if direction = "down" then
            some (player.position.1, player.position.2 + 1)
          else if direction = "left" then
            some (player.position.1 - 1, player.position.2)
          else if direction = "right" then
            some (player.position.1 + 1, player.position.2)
          else none) with
      | none => exact ⟨rfl, rfl⟩
      | some np =>
        dsimp only
        rw [can_player_move_to_health room pid h h player hpid np.1 np.2]
        by_cases hcan : (can_player_move_to room player np.1 np.2).1
        · rw [if_neg (not_not_intro hcan), if_neg (not_not_intro hcan)]
          refine ⟨rfl, ?_⟩
          dsimp only
          rw [show (setPlayerHealth room pid h).level_data = room.level_data from rfl,
            show (setPlayerHealth room pid h).players =
              updateFirstPlayer (fun p => { p with health := h }) pid room.players from rfl]
          have h1 : updateFirstPlayer (fun p => { p with position := np }) pid
                (updateFirstPlayer (fun p => { p with health := h }) pid room.players) =
              updateFirstPlayer (fun p => { p with health := h }) pid
                (updateFirstPlayer (fun p => { p with position := np }) pid room.players) :=
            updateFirstPlayer_comm (fun p => { p with position := np })
              (fun p => { p with health := h }) pid (fun _ => rfl) (fun _ => rfl)
              (fun _ => rfl) room.players
          cases hld : room.level_data with
          | none =>
            dsimp only
            exact congrArg
              (fun l => ({ room with players := l, level_data := none } : GameRoom)) h1
          | some ld =>
            dsimp only
            by_cases hexit : ld.tile_at np.1 np.2 = TileType.EXIT
            · rw [if_pos hexit, if_pos hexit]
              have hl : updateFirstPlayer markReachedExit pid
                    (updateFirstPlayer (fun p => { p with position := np }) pid
                      (updateFirstPlayer (fun p => { p with health := h }) pid
                        room.players)) =
                  updateFirstPlayer (fun p => { p with health := h }) pid
                    (updateFirstPlayer markReachedExit pid
                      (updateFirstPlayer (fun p => { p with position := np }) pid
                        room.players)) := by
                rw [h1]
                exact updateFirstPlayer_comm markReachedExit
                  (fun p => { p with health := h }) pid markReachedExit_id
                  (fun _ => rfl) (markReachedExit_health h)
                  (updateFirstPlayer (fun p => { p with position := np }) pid room.players)
              exact congrArg
                (fun l => ({ room with players := l, level_data := some ld } : GameRoom)) hl
            · rw [if_neg hexit, if_neg hexit]
              exact congrArg
                (fun l => ({ room with players := l, level_data := some ld } : GameRoom)) h1
        · rw [if_pos hcan, if_pos hcan]
          exact ⟨rfl, rfl⟩
  case exit_flag =>
    intro room pid direction np ld hld hm1 hexit
    unfold move_player at hm1 ⊢
    cases hg : room.get_player pid with
    | none =>
      rw [hg] at hm1
      simp at hm1
    | some player =>
      rw [hg] at hm1
      dsimp only at hm1 ⊢
      cases hnpo : (if direction = "up" then
            some (player.position.1, player.position.2 - 1)
          else if direction = "down" then
            some (player.position.1, player.position.2 + 1)
          else if direction = "left" then
            some (player.position.1 - 1, player.position.2)
          else if direction = "right" then
            some (player.position.1 + 1, player.position.2)
          else none) with
      | none =>
        rw [hnpo] at hm1
        simp at hm1
      | some np0 =>
        rw [hnpo] at hm1
        dsimp only at hm1 ⊢
        by_cases hcan : (can_player_move_to room player np0.1 np0.2).1
        · rw [if_neg (not_not_intro hcan)] at hm1 ⊢
          have hnp0 : np0 = np := by simpa using hm1
          subst hnp0
          dsimp only
          rw [hld]
          dsimp only
          rw [if_pos hexit]
          unfold GameRoom.get_player
          dsimp only
          rw [updateFirstPlayer_find? markReachedExit pid markReachedExit_id,
            updateFirstPlayer_find? (fun p => { p with position := np0 }) pid
              (fun _ => rfl)]
          rw [show room.players.find? (fun p => p.player_id = pid) = some player from by
            simpa [GameRoom.get_player] using hg]
          simp [markReachedExit_reached]
        · rw [if_pos hcan] at hm1
          simp at hm1
  case place_inv =>
    intro room pid h
    unfold place_bomb_of_id
    rw [get_player_setPlayerHealth]
    cases hg : room.get_player pid with
    | none => exact ⟨rfl, rfl⟩
    | some p =>
      simp only [Option.map_some']
      unfold place_bomb can_place_bomb
      by_cases hb : room.bombs.any (fun b =>
          b.x = p.position.1 ∧ b.y = p.position.2 ∧ ¬ b.exploded)
      · rw [if_pos (by simpa using hb), if_pos (by simpa using hb)]
        exact ⟨rfl, rfl⟩
      · rw [if_neg (by simpa using hb), if_neg (by simpa using hb)]
        exact ⟨rfl, rfl⟩
  case place_iff =>
    intro room pid p hg
    unfold place_bomb_of_id
    rw [hg]
    dsimp only
    unfold place_bomb can_place_bomb
    by_cases hb : room.bombs.any (fun b =>
        b.x = p.position.1 ∧ b.y = p.position.2 ∧ ¬ b.exploded)
    · rw [if_pos (by simpa using hb)]
      simp only [Option.isSome_none, Bool.false_eq_true, false_iff]
      exact not_not_intro hb
    · rw [if_neg (by simpa using hb)]
      exact iff_of_true rfl hb

/-- C10 witness: in the concrete room, killing player p1 (health 0)
changes nothing about the outcome of a move request, and the dead
player's move onto the Exit tile at (2, 1) sets their
`reached_exit` flag. -/
theorem c10_witness :
    ((move_player (setPlayerHealth c10Room "p1" 0) "p1" "right").1 =
        (move_player c10Room "p1" "right").1 ∧
      (move_player (setPlayerHealth c10Room "p1" 0) "p1" "right").2 =
        setPlayerHealth (move_player c10Room "p1" "right").2 "p1" 0) ∧
    ((move_player (setPlayerHealth c10Room "p1" 0) "p1" "right").2.get_player
        "p1").map Player.reached_exit = some true :=
  ⟨c10_dead_player_can_act.1 c10Room "p1" "right" 0,
    c10_dead_player_can_act.2.1 (setPlayerHealth c10Room "p1" 0) "p1" "right"
      (2, 1) c10Level (by decide) (by decide) (by decide)⟩

end Bomberman
